import Mathlib

/-!
Verification of the `draw` repository's texture-atlas allocator
(`src/crates/atlas/src/lib.rs`) against its natural-language specification.

The Rust code is shallowly embedded below.  Machine integers (`u32`, and
guillotiere's `i32`-valued `Size`) are modelled as `Nat`: every quantity
involved (widths, heights, layer counts, indices) is nonnegative in the
program, and no claim depends on wrap-around behaviour.  Byte buffers are
`List Nat`.  Fallible operations return `Option`/`Except`: `none` models a
Rust panic or a non-terminating recursion (the recursive `allocate_tile` is
embedded with explicit fuel), `Except.error` models an `Err` return.

GPU objects (`wgpu::Texture`, `TextureView`) are modelled by their
descriptors (`TexDesc`), and the command queue by an append-only log of
`GpuOp`s carried in the atlas state.  `Arc<AllocatedTexture>` is modelled by
`Shared`, which pairs the texture with its strong count; the strong count is
environment-controlled data that `deallocate` inspects, exactly as
`Arc::strong_count` is in the source.

The external crate `guillotiere` (the per-layer 2D bin packer
`AtlasAllocator`) is not part of the repository; the embedding is
parameterised over it: `packAlloc` models `AtlasAllocator::allocate`,
`newLayer` models `AtlasAllocator::new`, `packDealloc` models
`AtlasAllocator::deallocate`.  All theorems quantify over these parameters,
so they hold for every behaviour of the packer.
-/

namespace Draw

/-- guillotiere `Size` (a pair of dimensions); `area` mirrors `Size::area`. -/
structure Size where
  width : Nat
  height : Nat
deriving DecidableEq, Repr

def Size.area (s : Size) : Nat := s.width * s.height

/-- guillotiere `Rectangle` with integer corners `min`/`max`. -/
structure Rect where
  minX : Nat
  minY : Nat
  maxX : Nat
  maxY : Nat
deriving DecidableEq, Repr

/-- guillotiere `Allocation`: an id together with the packed rectangle. -/
structure SubAllocation where
  id : Nat
  rectangle : Rect
deriving DecidableEq, Repr

/-- `AtlasLocation` from the source: layer index, allocation id, packed rect. -/
structure AtlasLocation where
  layer : Nat
  id : Nat
  rect : Rect
deriving DecidableEq, Repr

/-- `AllocatedTile` from the source. -/
structure AllocatedTile where
  column : Nat
  row : Nat
  location : AtlasLocation
deriving DecidableEq, Repr

/-- `UnallocatedTile` from the source (the `PhantomData` marker is dropped). -/
structure UnallocatedTile where
  data : List Nat
  column : Nat
  row : Nat
  width : Nat
  height : Nat
deriving DecidableEq, Repr

/-- `UnallocatedTexture` from the source. -/
structure UnallocatedTexture where
  data : List Nat
  width : Nat
  height : Nat
deriving DecidableEq, Repr

/-- `AllocatedTexture` from the source. -/
structure AllocatedTexture (D : Type) where
  tiles : List AllocatedTile
  tile_size : Nat
  width : Nat
  height : Nat
  data : D
deriving DecidableEq, Repr

/-- Model of `Arc<AllocatedTexture>`: the value plus the strong count read by
`Arc::strong_count`.  The count is environment data (how many handles exist);
the atlas code only ever reads it in `deallocate`. -/
structure Shared (α : Type) where
  value : α
  strongCount : Nat
deriving DecidableEq, Repr

/-- Descriptor of a `wgpu::Texture` (and of the view created from it). -/
structure TexDesc where
  layerCount : Nat
  width : Nat
  height : Nat
deriving DecidableEq, Repr

/-- Log entry for an operation issued to the GPU queue. -/
inductive GpuOp where
  | writeTexture (x y layer : Nat) (data : List Nat) (width height : Nat)
  | copyTexture (layerCount width height : Nat)
deriving DecidableEq, Repr

/-- The error bailed out of `allocate_tile` carries the tile's dimensions. -/
structure AllocError where
  width : Nat
  height : Nat
deriving DecidableEq, Repr

/-- `LayeredAtlas` state.  `L` is the abstract per-layer sub-allocator state
(guillotiere `AtlasAllocator`), `K` the cache-key type, `D` the user payload.
`gpuOps` is the log of queue operations (a model artefact standing for the
side effects on the `wgpu::Queue`, not a field of the Rust struct). -/
structure LayeredAtlas (L K D : Type) where
  layers : List L
  allocations : List (Option K × Shared (AllocatedTexture D))
  size : Size
  tile_size : Nat
  texture : TexDesc
  texture_view : TexDesc
  max_size : Size
  max_layers : Nat
  needs_rebinding : Bool
  gpuOps : List GpuOp
deriving DecidableEq, Repr

instance {ε α : Type} [DecidableEq ε] [DecidableEq α] : DecidableEq (Except ε α) :=
  fun x y =>
  match x, y with
  | Except.ok a, Except.ok b =>
    if h : a = b then Decidable.isTrue (by rw [h])
    else Decidable.isFalse (fun hc => h (Except.ok.inj hc))
  | Except.error a, Except.error b =>
    if h : a = b then Decidable.isTrue (by rw [h])
    else Decidable.isFalse (fun hc => h (Except.error.inj hc))
  | Except.ok _, Except.error _ => Decidable.isFalse (fun hc => Except.noConfusion hc)
  | Except.error _, Except.ok _ => Decidable.isFalse (fun hc => Except.noConfusion hc)

/-- `HashMap::get` on the association-list model of the allocation map. -/
def mapLookup {K V : Type} [DecidableEq K] (k : K) : List (K × V) → Option V
  | [] => none
  | (k', v) :: rest => if k' = k then some v else mapLookup k rest

/-- `HashMap::insert` on the association-list model: replaces the entry for an
existing key, otherwise appends. -/
def mapInsert {K V : Type} [DecidableEq K] (k : K) (v : V) : List (K × V) → List (K × V)
  | [] => [(k, v)]
  | (k', v') :: rest => if k' = k then (k, v) :: rest else (k', v') :: mapInsert k v rest

/-- Traverse a list with a fallible function, collecting all results; `none`
as soon as one element fails.  (Embedding of a Rust loop whose body can
panic.) -/
def collectSome {α β : Type} : List α → (α → Option β) → Option (List β)
  | [], _ => some []
  | a :: as, f =>
    match f a with
    | none => none
    | some b =>
      match collectSome as f with
      | none => none
      | some bs => some (b :: bs)

/-- One tile of `LayeredAtlas::tile_texture`'s doubly nested loop body:
grid position `(row, column)`, clipped dimensions, and the tile's bytes
copied row by row from the source buffer.  The slice access
`texture.data[src_start..src_end]` panics (`none`) when `src_end` exceeds the
buffer length. -/
def mkTile (ts stride : Nat) (tex : UnallocatedTexture) (row column : Nat) :
    Option UnallocatedTile :=
  let x := column * ts
  let y := row * ts
  let tile_width := min (tex.width - x) ts
  let tile_height := min (tex.height - y) ts
  match collectSome (List.range tile_height) (fun ty =>
      let src_start := ((y + ty) * tex.width + x) * stride
      let src_end := src_start + tile_width * stride
      if src_end ≤ tex.data.length then
        some ((tex.data.drop src_start).take (src_end - src_start))
      else none) with
  | none => none
  | some rowsData =>
    some { data := rowsData.flatten, column := column, row := row,
           width := tile_width, height := tile_height }

/-- `LayeredAtlas::tile_texture`: split a source image into a row-major grid
of `ceil(height/ts) × ceil(width/ts)` tiles of at most `ts × ts` pixels,
edge tiles clipped.  `stride` is `T::format().components()` (bytes per
pixel).  `none` models the panic of an out-of-bounds slice access. -/
def tile_texture (ts stride : Nat) (tex : UnallocatedTexture) :
    Option (List UnallocatedTile) :=
  let rows := (tex.height + ts - 1) / ts
  let cols := (tex.width + ts - 1) / ts
  match collectSome (List.range rows) (fun row =>
      collectSome (List.range cols) (fun column => mkTile ts stride tex row column)) with
  | none => none
  | some rss => some rss.flatten

/-- The `for (layer, atlas) in self.layers.iter_mut().enumerate()` loop at the
top of `allocate_tile`: first-fit scan over the layers.  On success returns
the updated layer list, the index of the accepting layer, and the packed
sub-allocation. -/
def tryPackLayers {L : Type} (packAlloc : L → Nat → Nat → Option (SubAllocation × L)) :
    List L → Nat → Nat → Option (List L × Nat × SubAllocation)
  | [], _, _ => none
  | l :: rest, w, h =>
    match packAlloc l w h with
    | some (a, l') => some (l' :: rest, 0, a)
    | none =>
      match tryPackLayers packAlloc rest w h with
      | some (rest', i, a) => some (l :: rest', i + 1, a)
      | none => none

/-- The add-a-layer growth branch of `allocate_tile` (taken when
`layers.len() < max_layers`): new texture with one more layer at the current
size, GPU copy of all existing layers, fresh sub-allocator appended, view
recreated, `needs_rebinding` set. -/
def addLayerStep {L K D : Type} (newLayer : Size → L) (s : LayeredAtlas L K D) :
    LayeredAtlas L K D :=
  let tex : TexDesc :=
    { layerCount := s.layers.length + 1, width := s.size.width, height := s.size.height }
  { s with
    layers := s.layers ++ [newLayer s.size],
    texture := tex,
    texture_view := tex,
    needs_rebinding := true,
    gpuOps := s.gpuOps ++ [GpuOp.copyTexture s.layers.length s.size.width s.size.height] }

/-- The size-doubling growth branch of `allocate_tile` (taken when the layer
count has reached `max_layers` but `size.area() < max_size.area()`): new
texture at doubled dimensions, GPU copy of the old `size` region of every
layer, view recreated, `needs_rebinding` set.  Faithful to the source: the
`layers` sub-allocators and the `size` field are NOT touched. -/
def sizeDoubleStep {L K D : Type} (s : LayeredAtlas L K D) : LayeredAtlas L K D :=
  let tex : TexDesc :=
    { layerCount := s.layers.length, width := 2 * s.size.width, height := 2 * s.size.height }
  { s with
    texture := tex,
    texture_view := tex,
    needs_rebinding := true,
    gpuOps := s.gpuOps ++ [GpuOp.copyTexture s.layers.length s.size.width s.size.height] }

/-- `LayeredAtlas::allocate_tile`, with explicit fuel for its recursion:
`none` means the recursion did not finish within `fuel` steps (in particular,
if the result is `none` for every fuel, the Rust recursion diverges). -/
def allocate_tile {L K D : Type} (packAlloc : L → Nat → Nat → Option (SubAllocation × L))
    (newLayer : Size → L) :
    Nat → LayeredAtlas L K D → UnallocatedTile →
    Option (LayeredAtlas L K D × Except AllocError AllocatedTile)
  | 0, _, _ => none
  | fuel + 1, s, tile =>
    match tryPackLayers packAlloc s.layers tile.width tile.height with
    | some (layers', layer, a) =>
      some
        ({ s with
           layers := layers',
           gpuOps := s.gpuOps ++
             [GpuOp.writeTexture a.rectangle.minX a.rectangle.minY layer tile.data
               tile.width tile.height] },
         Except.ok
           { column := tile.column, row := tile.row,
             location := { layer := layer, id := a.id, rect := a.rectangle } })
    | none =>
      if s.layers.length < s.max_layers then
        allocate_tile packAlloc newLayer fuel (addLayerStep newLayer s) tile
      else if s.size.area < s.max_size.area then
        allocate_tile packAlloc newLayer fuel (sizeDoubleStep s) tile
      else
        some (s, Except.error { width := tile.width, height := tile.height })

/-- The `for tile in unallocated_tiles { allocated_tiles.push(...?) }` loop of
`allocate`: allocate each tile in order, propagating the first error. -/
def allocate_tiles {L K D : Type} (packAlloc : L → Nat → Nat → Option (SubAllocation × L))
    (newLayer : Size → L) (fuel : Nat) :
    LayeredAtlas L K D → List UnallocatedTile →
    Option (LayeredAtlas L K D × Except AllocError (List AllocatedTile))
  | s, [] => some (s, Except.ok [])
  | s, t :: ts =>
    match allocate_tile packAlloc newLayer fuel s t with
    | none => none
    | some (s', Except.error e) => some (s', Except.error e)
    | some (s', Except.ok a) =>
      match allocate_tiles packAlloc newLayer fuel s' ts with
      | none => none
      | some (s'', Except.error e) => some (s'', Except.error e)
      | some (s'', Except.ok as) => some (s'', Except.ok (a :: as))

/-- `LayeredAtlas::is_allocated`. -/
def is_allocated {L K D : Type} [DecidableEq K] (s : LayeredAtlas L K D) (k : K) :
    Option (Shared (AllocatedTexture D)) :=
  mapLookup (some k) s.allocations

/-- `LayeredAtlas::allocate`.  `stride` is `T::format().components()`.  The
returned `Shared` is the `Arc` handed to the caller; its strong count is 2 at
that moment (the map and the caller).  `none` models a panic inside
`tile_texture` or exhaustion of the recursion fuel. -/
def allocate {L K D : Type} [DecidableEq K]
    (packAlloc : L → Nat → Nat → Option (SubAllocation × L)) (newLayer : Size → L)
    (fuel stride : Nat) (s : LayeredAtlas L K D) (texture : UnallocatedTexture)
    (cache_key : Option K) (d : D) :
    Option (LayeredAtlas L K D × Except AllocError (Shared (AllocatedTexture D))) :=
  match
    match cache_key with
    | some k => is_allocated s k
    | none => none
  with
  | some allocation => some (s, Except.ok allocation)
  | none =>
    let w := texture.width
    let h := texture.height
    match tile_texture s.tile_size stride texture with
    | none => none
    | some unallocated_tiles =>
      match allocate_tiles packAlloc newLayer fuel s unallocated_tiles with
      | none => none
      | some (s', Except.error e) => some (s', Except.error e)
      | some (s', Except.ok allocated_tiles) =>
        let allocation : Shared (AllocatedTexture D) :=
          { value := { tiles := allocated_tiles, tile_size := s.tile_size,
                       width := w, height := h, data := d },
            strongCount := 2 }
        some ({ s' with allocations := mapInsert cache_key allocation s'.allocations },
              Except.ok allocation)

/-- `LayeredAtlas::allocate_raw`: the single-tile variant. -/
def allocate_raw {L K D : Type} [DecidableEq K]
    (packAlloc : L → Nat → Nat → Option (SubAllocation × L)) (newLayer : Size → L)
    (fuel : Nat) (s : LayeredAtlas L K D) (contents : List Nat) (w h : Nat)
    (cache_key : Option K) (d : D) :
    Option (LayeredAtlas L K D × Except AllocError (Shared (AllocatedTexture D))) :=
  match
    match cache_key with
    | some k => is_allocated s k
    | none => none
  with
  | some allocation => some (s, Except.ok allocation)
  | none =>
    match allocate_tile packAlloc newLayer fuel s
        { data := contents, column := 0, row := 0, width := w, height := h } with
    | none => none
    | some (s', Except.error e) => some (s', Except.error e)
    | some (s', Except.ok tile) =>
      let allocated : Shared (AllocatedTexture D) :=
        { value := { tiles := [tile], tile_size := s.tile_size,
                     width := w, height := h, data := d },
          strongCount := 2 }
      some ({ s' with allocations := mapInsert cache_key allocated s'.allocations },
            Except.ok allocated)

/-- The body of `deallocate`'s inner loop: release one tile's space back to
the sub-allocator of the layer recorded in its location, by allocation id
(`if let Some(atlas) = self.layers.get_mut(...) { atlas.deallocate(id) }`). -/
def releaseTile {L : Type} (packDealloc : L → Nat → L) (layers : List L)
    (t : AllocatedTile) : List L :=
  match layers[t.location.layer]? with
  | some l => layers.set t.location.layer (packDealloc l t.location.id)
  | none => layers

/-- `LayeredAtlas::deallocate`: partition the allocation map on
`Arc::strong_count > 1`, keep the still-referenced entries, and release every
tile of every orphaned entry back to its layer's sub-allocator. -/
def deallocate {L K D : Type} (packDealloc : L → Nat → L) (s : LayeredAtlas L K D) :
    LayeredAtlas L K D :=
  let alive := s.allocations.filter (fun kv => decide (1 < kv.2.strongCount))
  let dropped := s.allocations.filter (fun kv => ! decide (1 < kv.2.strongCount))
  let layers' := dropped.foldl
    (fun ls kv => kv.2.value.tiles.foldl (releaseTile packDealloc) ls) s.layers
  { s with allocations := alive, layers := layers' }

/-! ## Mesh generation (`to_mesh`, `to_quad`, `TextureVertex::new_block`)

The Rust code computes vertex positions and UVs in `f32`.  The embedding uses
`ℚ`, the standard exact idealisation: every operation performed
(`+`, `-`, `*`, `/`) is mirrored term by term, so the claims about which
expressions are computed are faithfully represented. -/

/-- A 2D point with rational coordinates (euclid `Point2D<f32>`). -/
structure QPoint where
  x : ℚ
  y : ℚ
deriving DecidableEq

/-- euclid `Box2D<f32>`. -/
structure Box2 where
  min : QPoint
  max : QPoint
deriving DecidableEq

/-- euclid `Box2D::is_empty`: true unless both extents are strictly positive. -/
def Box2.isEmpty (b : Box2) : Prop := ¬ (b.min.x < b.max.x ∧ b.min.y < b.max.y)

instance (b : Box2) : Decidable b.isEmpty := by
  unfold Box2.isEmpty
  infer_instance

/-- `TextureVertex` from the source. -/
structure TextureVertex where
  position : ℚ × ℚ
  texture_layer : Nat
  texture_coords : ℚ × ℚ
deriving DecidableEq

/-- `TextureMesh` from the source. -/
structure TextureMesh where
  vertices : List TextureVertex
  indices : List Nat
deriving DecidableEq

/-- `TextureMesh::empty`. -/
def TextureMesh.empty : TextureMesh := { vertices := [], indices := [] }

/-- `TextureVertex::BLOCK_INDICES`. -/
def BLOCK_INDICES : List Nat := [0, 1, 2, 0, 2, 3]

/-- `TextureVertex::new_block`: the four corner vertices of a quad, in the
order top-left, top-right, bottom-right, bottom-left. -/
def new_block (area : Box2) (texture_layer : Nat) (start_uv end_uv : ℚ × ℚ) :
    List TextureVertex :=
  [ { position := (area.min.x, area.min.y), texture_layer := texture_layer,
      texture_coords := (start_uv.1, start_uv.2) },
    { position := (area.max.x, area.min.y), texture_layer := texture_layer,
      texture_coords := (end_uv.1, start_uv.2) },
    { position := (area.max.x, area.max.y), texture_layer := texture_layer,
      texture_coords := (end_uv.1, end_uv.2) },
    { position := (area.min.x, area.max.y), texture_layer := texture_layer,
      texture_coords := (start_uv.1, end_uv.2) } ]

/-- `TextureMesh::append_block`: append 4 vertices and 6 offset indices. -/
def TextureMesh.append_block (m : TextureMesh) (vs : List TextureVertex) : TextureMesh :=
  { vertices := m.vertices ++ vs,
    indices := m.indices ++ BLOCK_INDICES.map (fun i => m.vertices.length + i) }

/-- `AllocatedTile::to_quad`: UVs are the tile's packed rectangle divided by
the atlas's current size. -/
def AllocatedTile.to_quad (t : AllocatedTile) (output_area : Box2) (atlas_size : Size) :
    List TextureVertex :=
  let w : ℚ := atlas_size.width
  let h : ℚ := atlas_size.height
  let start_uv : ℚ × ℚ := ((t.location.rect.minX : ℚ) / w, (t.location.rect.minY : ℚ) / h)
  let end_uv : ℚ × ℚ := ((t.location.rect.maxX : ℚ) / w, (t.location.rect.maxY : ℚ) / h)
  new_block output_area t.location.layer start_uv end_uv

/-- The destination sub-rectangle the `to_mesh` loop body computes for one
tile.  Faithful to the source: the scale factors are
`area_ratio_w = self.width / output_size.width` (original over output) and
the rectangle is `area.min + grid_position * ratio` to
`+ real_tile_size * ratio`. -/
def tileDest {D : Type} (tex : AllocatedTexture D) (area : Box2) (tile : AllocatedTile) :
    Box2 :=
  let output_w : ℚ := area.max.x - area.min.x
  let output_h : ℚ := area.max.y - area.min.y
  let area_ratio_w : ℚ := (tex.width : ℚ) / output_w
  let area_ratio_h : ℚ := (tex.height : ℚ) / output_h
  let real_w : ℚ := (tile.location.rect.maxX : ℚ) - (tile.location.rect.minX : ℚ)
  let real_h : ℚ := (tile.location.rect.maxY : ℚ) - (tile.location.rect.minY : ℚ)
  let x1 : ℚ := area.min.x + ((tile.column * tex.tile_size : Nat) : ℚ) * area_ratio_w
  let y1 : ℚ := area.min.y + ((tile.row * tex.tile_size : Nat) : ℚ) * area_ratio_h
  let x2 : ℚ := x1 + real_w * area_ratio_w
  let y2 : ℚ := y1 + real_h * area_ratio_h
  { min := { x := x1, y := y1 }, max := { x := x2, y := y2 } }

/-- The quad the `to_mesh` loop body appends for one tile. -/
def tileQuad {D : Type} (tex : AllocatedTexture D) (area : Box2) (atlas_size : Size)
    (tile : AllocatedTile) : List TextureVertex :=
  tile.to_quad (tileDest tex area tile) atlas_size

/-- `AllocatedTexture::to_mesh`. -/
def AllocatedTexture.to_mesh {D : Type} (tex : AllocatedTexture D) (area : Box2)
    (atlas_size : Size) : TextureMesh :=
  if area.isEmpty then TextureMesh.empty
  else
    tex.tiles.foldl
      (fun m tile => m.append_block (tileQuad tex area atlas_size tile))
      TextureMesh.empty

/-! ## Claim-side definition: tile reassembly

`reassemble` follows the words of claim C2 (and spec section 4.4's
reconstruction property): place every tile's byte buffer back at its
`(row, column)` grid position, using the tile's actual (possibly clipped)
dimensions, and read the image back in row-major pixel order. -/

/-- Reassemble an image from tiles by their `(row, column)` positions: the
byte at pixel `(x, y)`, channel `c`, comes from the tile whose grid cell
contains `(x, y)`, at the tile-local offset computed with the tile's actual
width. -/
def reassemble (w h ts stride : Nat) (tiles : List UnallocatedTile) : List Nat :=
  ((List.range h).map (fun y =>
    ((List.range w).map (fun x =>
      match tiles.find? (fun t => t.row == y / ts && t.column == x / ts) with
      | some t =>
        (List.range stride).map (fun c =>
          t.data.getD (((y % ts) * t.width + (x % ts)) * stride + c) 0)
      | none => List.replicate stride 0)).flatten)).flatten

/-! ## Closed forms for `tile_texture` (proof infrastructure)

When every slice access is in bounds, `mkTile` and `tile_texture` are equal
to the following panic-free closed forms. -/

/-- Closed form of the byte buffer of the tile at grid cell `(row, column)`. -/
def pureTileData (ts stride : Nat) (tex : UnallocatedTexture) (row column : Nat) :
    List Nat :=
  let x := column * ts
  let y := row * ts
  let tile_width := min (tex.width - x) ts
  let tile_height := min (tex.height - y) ts
  ((List.range tile_height).map (fun ty =>
    (tex.data.drop (((y + ty) * tex.width + x) * stride)).take (tile_width * stride))).flatten

/-- Closed form of the tile at grid cell `(row, column)`. -/
def pureTile (ts stride : Nat) (tex : UnallocatedTexture) (row column : Nat) :
    UnallocatedTile :=
  { data := pureTileData ts stride tex row column,
    column := column,
    row := row,
    width := min (tex.width - column * ts) ts,
    height := min (tex.height - row * ts) ts }

/-- Closed form of `tile_texture`'s output, as a row-major grid of rows. -/
def pureTiles (ts stride : Nat) (tex : UnallocatedTexture) : List (List UnallocatedTile) :=
  (List.range ((tex.height + ts - 1) / ts)).map (fun r =>
    (List.range ((tex.width + ts - 1) / ts)).map (fun c => pureTile ts stride tex r c))

/-! ## Operation traces

To state lifetime properties ("an allocation remains tracked until ..."), the
atlas's public mutating operations are bundled as an operation type and a
trace interpreter.  `runOp` discards the returned handle/error and keeps the
state (a `none` state models a panic or a diverging call, which aborts the
trace). -/

/-- One public mutating call on a `LayeredAtlas`. -/
inductive AtlasOp (K D : Type) where
  | alloc (fuel stride : Nat) (texture : UnallocatedTexture) (cache_key : Option K)
      (d : D)
  | allocRaw (fuel : Nat) (contents : List Nat) (w h : Nat) (cache_key : Option K)
      (d : D)
  | sweep

/-- An operation that can neither remove nor replace the map's `None` entry:
any allocation under a `Some` key.  A `deallocate` sweep or a `None`-key
allocation may affect the entry, so they are excluded. -/
def keepsNoneEntry {K D : Type} : AtlasOp K D → Prop
  | AtlasOp.alloc _ _ _ cache_key _ => cache_key ≠ none
  | AtlasOp.allocRaw _ _ _ _ cache_key _ => cache_key ≠ none
  | AtlasOp.sweep => False

instance {K D : Type} [DecidableEq K] (op : AtlasOp K D) :
    Decidable (keepsNoneEntry op) :=
  match op with
  | AtlasOp.alloc _ _ _ k _ => inferInstanceAs (Decidable (k ≠ none))
  | AtlasOp.allocRaw _ _ _ _ k _ => inferInstanceAs (Decidable (k ≠ none))
  | AtlasOp.sweep => inferInstanceAs (Decidable False)

/-- Run one operation, keeping the resulting state. -/
def runOp {L K D : Type} [DecidableEq K]
    (packAlloc : L → Nat → Nat → Option (SubAllocation × L)) (newLayer : Size → L)
    (packDealloc : L → Nat → L) (s : LayeredAtlas L K D) :
    AtlasOp K D → Option (LayeredAtlas L K D)
  | AtlasOp.alloc fuel stride texture cache_key d =>
    (allocate packAlloc newLayer fuel stride s texture cache_key d).map Prod.fst
  | AtlasOp.allocRaw fuel contents w h cache_key d =>
    (allocate_raw packAlloc newLayer fuel s contents w h cache_key d).map Prod.fst
  | AtlasOp.sweep => some (deallocate packDealloc s)

/-- Run a list of operations in order. -/
def runOps {L K D : Type} [DecidableEq K]
    (packAlloc : L → Nat → Nat → Option (SubAllocation × L)) (newLayer : Size → L)
    (packDealloc : L → Nat → L) :
    LayeredAtlas L K D → List (AtlasOp K D) → Option (LayeredAtlas L K D)
  | s, [] => some s
  | s, op :: ops =>
    match runOp packAlloc newLayer packDealloc s op with
    | none => none
    | some s' => runOps packAlloc newLayer packDealloc s' ops

/-! ## Concrete fixtures (used by witnesses and counterexamples)

A trivial instantiation of the abstract guillotiere parameters: `L := Unit`
with a packer that always fails (`failPack`) or always succeeds at the origin
(`okPack`).  The atlas states below are small hand-built states. -/

/-- A sub-allocator model that can never pack anything (e.g. a full layer). -/
def failPack : Unit → Nat → Nat → Option (SubAllocation × Unit) := fun _ _ _ => none

/-- A sub-allocator model that always packs at the origin with id 0. -/
def okPack : Unit → Nat → Nat → Option (SubAllocation × Unit) :=
  fun _ w h =>
    some ({ id := 0, rectangle := { minX := 0, minY := 0, maxX := w, maxY := h } }, ())

def unitLayer : Size → Unit := fun _ => ()

def unitDealloc : Unit → Nat → Unit := fun _ _ => ()

/-- A 3×2 single-channel image with bytes 0..5. -/
def cImg : UnallocatedTexture := { data := [0, 1, 2, 3, 4, 5], width := 3, height := 2 }

def cTile : UnallocatedTile := { data := [0], column := 0, row := 0, width := 1, height := 1 }

/-- A 1×1 single-channel image. -/
def cImg1 : UnallocatedTexture := { data := [7], width := 1, height := 1 }

/-- A 2×1 single-channel image. -/
def cImg2 : UnallocatedTexture := { data := [8, 9], width := 2, height := 1 }

/-- A state whose single (full) layer is at `max_layers` while
`size.area < max_size.area`: the size-doubling branch is taken forever. -/
def cStuck : LayeredAtlas Unit Nat Unit :=
  { layers := [()], allocations := [],
    size := { width := 1, height := 1 }, tile_size := 128,
    texture := { layerCount := 1, width := 1, height := 1 },
    texture_view := { layerCount := 1, width := 1, height := 1 },
    max_size := { width := 2, height := 2 }, max_layers := 1,
    needs_rebinding := false, gpuOps := [] }

/-- A state at `max_layers` with `size = max_size` and a full layer:
allocation is exhausted. -/
def cExhausted : LayeredAtlas Unit Nat Unit :=
  { cStuck with max_size := { width := 1, height := 1 } }

/-- An ordinary small state with plenty of room. -/
def cAtlas : LayeredAtlas Unit Nat Unit :=
  { layers := [()], allocations := [],
    size := { width := 2048, height := 2048 }, tile_size := 128,
    texture := { layerCount := 1, width := 2048, height := 2048 },
    texture_view := { layerCount := 1, width := 2048, height := 2048 },
    max_size := { width := 4096, height := 4096 }, max_layers := 4,
    needs_rebinding := false, gpuOps := [] }

/-- The shared allocation produced by allocating `cImg1` into `cAtlas` with
the `okPack` packer. -/
def cShared1 : Shared (AllocatedTexture Unit) :=
  { value :=
      { tiles := [{ column := 0, row := 0,
                    location := { layer := 0, id := 0,
                                  rect := { minX := 0, minY := 0, maxX := 1, maxY := 1 } } }],
        tile_size := 128, width := 1, height := 1, data := () },
    strongCount := 2 }

/-- The shared allocation produced by allocating `cImg2` into `cAtlas`. -/
def cShared2 : Shared (AllocatedTexture Unit) :=
  { value :=
      { tiles := [{ column := 0, row := 0,
                    location := { layer := 0, id := 0,
                                  rect := { minX := 0, minY := 0, maxX := 2, maxY := 1 } } }],
        tile_size := 128, width := 2, height := 1, data := () },
    strongCount := 2 }

/-- `cAtlas` after allocating `cImg1` under key `k`. -/
def cAtlasAfter1 (k : Option Nat) : LayeredAtlas Unit Nat Unit :=
  { cAtlas with
    allocations := [(k, cShared1)],
    gpuOps := [GpuOp.writeTexture 0 0 0 [7] 1 1] }

/-- `cAtlasAfter1 none` after also allocating `cImg2` under key `none`: the
`none` map entry is replaced. -/
def cAtlasAfter2 : LayeredAtlas Unit Nat Unit :=
  { cAtlas with
    allocations := [(none, cShared2)],
    gpuOps := [GpuOp.writeTexture 0 0 0 [7] 1 1, GpuOp.writeTexture 0 0 0 [8, 9] 2 1] }

/-- `cAtlasAfter1 none` after additionally allocating `cImg1` under the key
`some 5`: the `None` entry survives and the new entry is appended. -/
def cAtlasAfter1b : LayeredAtlas Unit Nat Unit :=
  { cAtlas with
    allocations := [(none, cShared1), (some 5, cShared1)],
    gpuOps := [GpuOp.writeTexture 0 0 0 [7] 1 1, GpuOp.writeTexture 0 0 0 [7] 1 1] }

/-- A state whose only allocation is an orphaned (strong count 1) `None`-key
entry. -/
def cAtlasNoneDead : LayeredAtlas Unit Nat Unit :=
  { cAtlas with allocations := [(none, { cShared1 with strongCount := 1 })] }

/-- A state holding one allocation still referenced externally (strong count
2) and one orphaned allocation (strong count 1). -/
def cAtlasMix : LayeredAtlas Unit Nat Unit :=
  { cAtlas with
    allocations := [(some 1, cShared1), (some 2, { cShared2 with strongCount := 1 })] }

/-- A 2×2 allocated texture consisting of one tile packed at (0,0)-(2,2) in
layer 0. -/
def cAllocTile : AllocatedTile :=
  { column := 0, row := 0,
    location := { layer := 0, id := 0,
                  rect := { minX := 0, minY := 0, maxX := 2, maxY := 2 } } }

def cAllocTex : AllocatedTexture Unit :=
  { tiles := [cAllocTile], tile_size := 2, width := 2, height := 2, data := () }

/-- Output rectangle (0,0)-(4,4): twice the texture's logical size. -/
def cArea : Box2 := { min := { x := 0, y := 0 }, max := { x := 4, y := 4 } }

/-- A degenerate (empty) output rectangle. -/
def cAreaEmpty : Box2 := { min := { x := 0, y := 0 }, max := { x := 0, y := 4 } }

/-! ## General helper lemmas -/

theorem collectSome_eq_some_map {α β : Type} (l : List α) (f : α → Option β) (g : α → β)
    (h : ∀ a ∈ l, f a = some (g a)) : collectSome l f = some (l.map g) := by
  induction l with
  | nil => rfl
  | cons a as ih =>
    have ha : f a = some (g a) := h a (by simp)
    have has : collectSome as f = some (as.map g) := ih (fun x hx => h x (by simp [hx]))
    simp [collectSome, ha, has]

theorem collectSome_eq_none {α β : Type} (l : List α) (f : α → Option β) (a : α)
    (ha : a ∈ l) (hf : f a = none) : collectSome l f = none := by
  induction l with
  | nil => simp at ha
  | cons b bs ih =>
    rcases List.mem_cons.mp ha with hb | hb
    · subst hb; simp [collectSome, hf]
    · cases hfb : f b with
      | none => simp [collectSome, hfb]
      | some v => simp [collectSome, hfb, ih hb]

theorem length_flatten_uniform {α : Type} (m : Nat) (L : List (List α))
    (h : ∀ x ∈ L, x.length = m) : L.flatten.length = L.length * m := by
  induction L with
  | nil => simp
  | cons x xs ih =>
    have hx : x.length = m := h x (by simp)
    have hxs := ih (fun y hy => h y (by simp [hy]))
    simp [List.flatten_cons, hx, hxs, Nat.succ_mul, Nat.add_comm]

theorem getElem?_flatten_uniform {α : Type} (m : Nat) (L : List (List α)) (i j : Nat)
    (h : ∀ x ∈ L, x.length = m) (hj : j < m) :
    L.flatten[i * m + j]? = (L[i]?).bind (fun x => x[j]?) := by
  induction L generalizing i with
  | nil => simp
  | cons x xs ih =>
    have hx : x.length = m := h x (by simp)
    have hxs : ∀ y ∈ xs, y.length = m := fun y hy => h y (by simp [hy])
    cases i with
    | zero =>
      have hlt : j < x.length := by omega
      simp [List.flatten_cons, List.getElem?_append, hlt]
    | succ i =>
      have hge : ¬ ((i + 1) * m + j < x.length) := by
        rw [hx]; push_neg; calc m ≤ (i + 1) * m := by nlinarith
          _ ≤ (i + 1) * m + j := by omega
      have harith : (i + 1) * m + j - x.length = i * m + j := by
        rw [hx]; have : (i + 1) * m = i * m + m := by ring
        omega
      rw [List.flatten_cons, List.getElem?_append, if_neg hge, harith, ih i hxs]
      simp

/-- `i < ⌈n / ts⌉` implies `i * ts < n` (for positive `ts`). -/
theorem mul_lt_of_lt_ceilDiv (ts n i : Nat) (hts : 0 < ts)
    (hi : i < (n + ts - 1) / ts) : i * ts < n := by
  have h1 : i + 1 ≤ (n + ts - 1) / ts := hi
  have h2 : (i + 1) * ts ≤ n + ts - 1 := (Nat.le_div_iff_mul_le hts).mp h1
  have h3 : (i + 1) * ts = i * ts + ts := by ring
  omega

/-- `y < h` implies `y / ts < ⌈h / ts⌉` (for positive `ts`). -/
theorem div_lt_ceilDiv (ts h y : Nat) (hts : 0 < ts) (hy : y < h) :
    y / ts < (h + ts - 1) / ts := by
  have h2 : (y / ts + 1) * ts ≤ h + ts - 1 := by
    have : ts * (y / ts) ≤ y := Nat.mul_div_le y ts
    have h3 : (y / ts + 1) * ts = ts * (y / ts) + ts := by ring
    omega
  exact (Nat.le_div_iff_mul_le hts).mpr h2

theorem mapLookup_mapInsert_self {K V : Type} [DecidableEq K] (k : K) (v : V)
    (m : List (K × V)) : mapLookup k (mapInsert k v m) = some v := by
  induction m with
  | nil => simp [mapInsert, mapLookup]
  | cons kv rest ih =>
    by_cases hk : kv.1 = k
    · simp [mapInsert, hk, mapLookup]
    · simp only [mapInsert]
      rw [if_neg (by exact hk)]
      simp [mapLookup, hk, ih]

theorem mapLookup_mapInsert_ne {K V : Type} [DecidableEq K] (k k' : K) (hne : k' ≠ k)
    (v : V) (m : List (K × V)) : mapLookup k' (mapInsert k v m) = mapLookup k' m := by
  induction m with
  | nil =>
    simp only [mapInsert, mapLookup]
    rw [if_neg (fun hc => hne hc.symm)]
  | cons kv rest ih =>
    by_cases hk : kv.1 = k
    · simp only [mapInsert, if_pos hk, mapLookup]
      rw [if_neg (fun hc => hne hc.symm),
        if_neg (fun hc => hne (by rw [← hk]; exact hc.symm))]
    · simp only [mapInsert, if_neg hk, mapLookup, ih]

theorem mapLookup_not_mem {K V : Type} [DecidableEq K] (k : K) (m : List (K × V))
    (h : k ∉ m.map Prod.fst) : mapLookup k m = none := by
  induction m with
  | nil => rfl
  | cons kv rest ih =>
    simp only [List.map_cons, List.mem_cons] at h
    push_neg at h
    simp only [mapLookup]
    rw [if_neg (fun hc => h.1 hc.symm)]
    exact ih h.2

theorem mem_mapInsert_keys {K V : Type} [DecidableEq K] (k x : K) (v : V)
    (m : List (K × V)) (hx : x ∈ (mapInsert k v m).map Prod.fst) :
    x = k ∨ x ∈ m.map Prod.fst := by
  induction m with
  | nil => simp [mapInsert] at hx; exact Or.inl hx
  | cons kv rest ih =>
    by_cases hk : kv.1 = k
    · simp only [mapInsert, if_pos hk, List.map_cons, List.mem_cons] at hx
      rcases hx with h | h
      · exact Or.inl h
      · exact Or.inr (by simp [h])
    · simp only [mapInsert, if_neg hk, List.map_cons, List.mem_cons] at hx
      rcases hx with h | h
      · exact Or.inr (by simp [h])
      · rcases ih h with h' | h'
        · exact Or.inl h'
        · exact Or.inr (by simp [h'])

theorem mapInsert_keys_nodup {K V : Type} [DecidableEq K] (k : K) (v : V)
    (m : List (K × V)) (hnd : (m.map Prod.fst).Nodup) :
    ((mapInsert k v m).map Prod.fst).Nodup := by
  induction m with
  | nil => simp [mapInsert]
  | cons kv rest ih =>
    simp only [List.map_cons, List.nodup_cons] at hnd
    by_cases hk : kv.1 = k
    · simp only [mapInsert, if_pos hk, List.map_cons, List.nodup_cons]
      exact ⟨by rw [← hk]; exact hnd.1, hnd.2⟩
    · simp only [mapInsert, if_neg hk, List.map_cons, List.nodup_cons]
      refine ⟨?_, ih hnd.2⟩
      intro hc
      rcases mem_mapInsert_keys k kv.1 v rest hc with h | h
      · exact hk h
      · exact hnd.1 h

theorem mapInsert_entry_unique {K V : Type} [DecidableEq K] (k : K) (v : V)
    (m : List (K × V)) (hnd : (m.map Prod.fst).Nodup) :
    ∀ kv ∈ mapInsert k v m, kv.1 = k → kv.2 = v := by
  induction m with
  | nil =>
    intro kv hkv _
    simp only [mapInsert, List.mem_singleton] at hkv
    rw [hkv]
  | cons hd rest ih =>
    simp only [List.map_cons, List.nodup_cons] at hnd
    intro kv hkv hk1
    by_cases hk : hd.1 = k
    · simp only [mapInsert, if_pos hk, List.mem_cons] at hkv
      rcases hkv with h | h
      · rw [h]
      · exfalso
        apply hnd.1
        rw [hk]
        rw [← hk1]
        exact List.mem_map.mpr ⟨kv, h, rfl⟩
    · simp only [mapInsert, if_neg hk, List.mem_cons] at hkv
      rcases hkv with h | h
      · exfalso
        apply hk
        rw [h] at hk1
        exact hk1
      · exact ih hnd.2 kv h hk1

theorem mapLookup_filter {K V : Type} [DecidableEq K] (p : K × V → Bool)
    (m : List (K × V)) (hnd : (m.map Prod.fst).Nodup) (k : K) :
    mapLookup k (m.filter p) =
      match mapLookup k m with
      | some v => if p (k, v) then some v else none
      | none => none := by
  induction m with
  | nil => rfl
  | cons hd rest ih =>
    rcases hd with ⟨a, b⟩
    simp only [List.map_cons, List.nodup_cons] at hnd
    by_cases hk : a = k
    · subst hk
      cases hp : p (a, b) with
      | true =>
        rw [List.filter_cons_of_pos hp]
        simp [mapLookup, hp]
      | false =>
        rw [List.filter_cons_of_neg (by simp [hp])]
        have hnot : a ∉ (rest.filter p).map Prod.fst := by
          intro hc
          apply hnd.1
          rcases List.mem_map.mp hc with ⟨kv, hkv, hfst⟩
          exact List.mem_map.mpr ⟨kv, List.mem_of_mem_filter hkv, hfst⟩
        rw [mapLookup_not_mem a _ hnot]
        simp [mapLookup, hp]
    · cases hp : p (a, b) with
      | true =>
        rw [List.filter_cons_of_pos hp]
        simp only [mapLookup, if_neg hk]
        exact ih hnd.2
      | false =>
        rw [List.filter_cons_of_neg (by simp [hp])]
        simp only [mapLookup, if_neg hk]
        exact ih hnd.2

/-! ## `tile_texture` closed-form lemmas -/

theorem mkTile_eq_pure (ts stride : Nat) (tex : UnallocatedTexture) (row column : Nat)
    (hts : 0 < ts) (hlen : tex.width * tex.height * stride ≤ tex.data.length)
    (hr : row < (tex.height + ts - 1) / ts) (hc : column < (tex.width + ts - 1) / ts) :
    mkTile ts stride tex row column = some (pureTile ts stride tex row column) := by
  have hx : column * ts < tex.width := mul_lt_of_lt_ceilDiv ts tex.width column hts hc
  have hy : row * ts < tex.height := mul_lt_of_lt_ceilDiv ts tex.height row hts hr
  have hbound : ∀ ty ∈ List.range (min (tex.height - row * ts) ts),
      ((row * ts + ty) * tex.width + column * ts) * stride +
        min (tex.width - column * ts) ts * stride ≤ tex.data.length := by
    intro ty hty
    have hty' : ty < min (tex.height - row * ts) ts := List.mem_range.mp hty
    have h1 : row * ts + ty + 1 ≤ tex.height := by omega
    have h2 : column * ts + min (tex.width - column * ts) ts ≤ tex.width := by omega
    have h3 : (row * ts + ty) * tex.width +
        (column * ts + min (tex.width - column * ts) ts) ≤ tex.height * tex.width := by
      calc (row * ts + ty) * tex.width + (column * ts + min (tex.width - column * ts) ts)
          ≤ (row * ts + ty) * tex.width + tex.width := by omega
        _ = (row * ts + ty + 1) * tex.width := by ring
        _ ≤ tex.height * tex.width := Nat.mul_le_mul_right _ h1
    calc ((row * ts + ty) * tex.width + column * ts) * stride +
          min (tex.width - column * ts) ts * stride
        = ((row * ts + ty) * tex.width +
            (column * ts + min (tex.width - column * ts) ts)) * stride := by ring
      _ ≤ tex.height * tex.width * stride := Nat.mul_le_mul_right _ h3
      _ = tex.width * tex.height * stride := by ring
      _ ≤ tex.data.length := hlen
  have hcoll : collectSome (List.range (min (tex.height - row * ts) ts)) (fun ty =>
      let src_start := ((row * ts + ty) * tex.width + column * ts) * stride
      let src_end := src_start + min (tex.width - column * ts) ts * stride
      if src_end ≤ tex.data.length then
        some ((tex.data.drop src_start).take (src_end - src_start))
      else none) =
      some ((List.range (min (tex.height - row * ts) ts)).map (fun ty =>
        (tex.data.drop (((row * ts + ty) * tex.width + column * ts) * stride)).take
          (min (tex.width - column * ts) ts * stride))) := by
    apply collectSome_eq_some_map
    intro ty hty
    have := hbound ty hty
    simp only [if_pos this, Nat.add_sub_cancel_left]
  simp only [mkTile, pureTile, pureTileData]
  rw [hcoll]

theorem tile_texture_eq_pure (ts stride : Nat) (tex : UnallocatedTexture)
    (hts : 0 < ts) (hlen : tex.width * tex.height * stride ≤ tex.data.length) :
    tile_texture ts stride tex = some (pureTiles ts stride tex).flatten := by
  have hcoll : collectSome (List.range ((tex.height + ts - 1) / ts)) (fun row =>
      collectSome (List.range ((tex.width + ts - 1) / ts)) (fun column =>
        mkTile ts stride tex row column)) = some (pureTiles ts stride tex) := by
    apply collectSome_eq_some_map
    intro r hrm
    apply collectSome_eq_some_map
    intro c hcm
    exact mkTile_eq_pure ts stride tex r c hts hlen
      (List.mem_range.mp hrm) (List.mem_range.mp hcm)
  simp only [tile_texture]
  rw [hcoll]

theorem pureTileData_length (ts stride : Nat) (tex : UnallocatedTexture) (row column : Nat)
    (hts : 0 < ts) (hlen : tex.width * tex.height * stride ≤ tex.data.length)
    (hr : row < (tex.height + ts - 1) / ts) (hc : column < (tex.width + ts - 1) / ts) :
    (pureTileData ts stride tex row column).length =
      min (tex.width - column * ts) ts * (min (tex.height - row * ts) ts * stride) := by
  have hx : column * ts < tex.width := mul_lt_of_lt_ceilDiv ts tex.width column hts hc
  have hy : row * ts < tex.height := mul_lt_of_lt_ceilDiv ts tex.height row hts hr
  have hchunk : ∀ l ∈ (List.range (min (tex.height - row * ts) ts)).map (fun ty =>
      (tex.data.drop (((row * ts + ty) * tex.width + column * ts) * stride)).take
        (min (tex.width - column * ts) ts * stride)),
      l.length = min (tex.width - column * ts) ts * stride := by
    intro l hl
    rcases List.mem_map.mp hl with ⟨ty, htym, rfl⟩
    have hty : ty < min (tex.height - row * ts) ts := List.mem_range.mp htym
    have h1 : row * ts + ty + 1 ≤ tex.height := by omega
    have h2 : column * ts + min (tex.width - column * ts) ts ≤ tex.width := by omega
    have h3 : (row * ts + ty) * tex.width +
        (column * ts + min (tex.width - column * ts) ts) ≤ tex.height * tex.width := by
      calc (row * ts + ty) * tex.width + (column * ts + min (tex.width - column * ts) ts)
          ≤ (row * ts + ty) * tex.width + tex.width := by omega
        _ = (row * ts + ty + 1) * tex.width := by ring
        _ ≤ tex.height * tex.width := Nat.mul_le_mul_right _ h1
    have hfit : ((row * ts + ty) * tex.width + column * ts) * stride +
        min (tex.width - column * ts) ts * stride ≤ tex.data.length := by
      calc ((row * ts + ty) * tex.width + column * ts) * stride +
            min (tex.width - column * ts) ts * stride
          = ((row * ts + ty) * tex.width +
              (column * ts + min (tex.width - column * ts) ts)) * stride := by ring
        _ ≤ tex.height * tex.width * stride := Nat.mul_le_mul_right _ h3
        _ = tex.width * tex.height * stride := by ring
        _ ≤ tex.data.length := hlen
    simp only [List.length_take, List.length_drop]
    omega
  simp only [pureTileData]
  rw [length_flatten_uniform (min (tex.width - column * ts) ts * stride) _ hchunk]
  simp only [List.length_map, List.length_range]
  ring

theorem pureTileData_getElem (ts stride : Nat) (tex : UnallocatedTexture)
    (row column ty tx cc : Nat)
    (hts : 0 < ts) (hlen : tex.width * tex.height * stride ≤ tex.data.length)
    (hr : row < (tex.height + ts - 1) / ts) (hc : column < (tex.width + ts - 1) / ts)
    (hty : ty < min (tex.height - row * ts) ts) (htx : tx < min (tex.width - column * ts) ts)
    (hcc : cc < stride) :
    (pureTileData ts stride tex row column)[(ty * min (tex.width - column * ts) ts + tx)
        * stride + cc]? =
      tex.data[((row * ts + ty) * tex.width + (column * ts + tx)) * stride + cc]? := by
  have hx : column * ts < tex.width := mul_lt_of_lt_ceilDiv ts tex.width column hts hc
  have hy : row * ts < tex.height := mul_lt_of_lt_ceilDiv ts tex.height row hts hr
  set tw := min (tex.width - column * ts) ts with htw
  have hchunk : ∀ l ∈ (List.range (min (tex.height - row * ts) ts)).map (fun t =>
      (tex.data.drop (((row * ts + t) * tex.width + column * ts) * stride)).take
        (tw * stride)), l.length = tw * stride := by
    intro l hl
    rcases List.mem_map.mp hl with ⟨t, htm, rfl⟩
    have ht : t < min (tex.height - row * ts) ts := List.mem_range.mp htm
    have h1 : row * ts + t + 1 ≤ tex.height := by omega
    have h2 : column * ts + tw ≤ tex.width := by omega
    have h3 : (row * ts + t) * tex.width + (column * ts + tw) ≤
        tex.height * tex.width := by
      calc (row * ts + t) * tex.width + (column * ts + tw)
          ≤ (row * ts + t) * tex.width + tex.width := by omega
        _ = (row * ts + t + 1) * tex.width := by ring
        _ ≤ tex.height * tex.width := Nat.mul_le_mul_right _ h1
    have hfit : ((row * ts + t) * tex.width + column * ts) * stride + tw * stride ≤
        tex.data.length := by
      calc ((row * ts + t) * tex.width + column * ts) * stride + tw * stride
          = ((row * ts + t) * tex.width + (column * ts + tw)) * stride := by ring
        _ ≤ tex.height * tex.width * stride := Nat.mul_le_mul_right _ h3
        _ = tex.width * tex.height * stride := by ring
        _ ≤ tex.data.length := hlen
    simp only [List.length_take, List.length_drop]
    omega
  have hj : tx * stride + cc < tw * stride := by
    have h1 : (tx + 1) * stride ≤ tw * stride := Nat.mul_le_mul_right _ (by omega)
    have h2 : (tx + 1) * stride = tx * stride + stride := by ring
    omega
  have hidx : (ty * tw + tx) * stride + cc = ty * (tw * stride) + (tx * stride + cc) := by
    ring
  simp only [pureTileData]
  rw [hidx,
    getElem?_flatten_uniform (tw * stride) _ ty (tx * stride + cc) hchunk hj,
    List.getElem?_map, List.getElem?_range hty]
  simp only [Option.map_some', Option.some_bind]
  rw [List.getElem?_take, if_pos hj, List.getElem?_drop]
  congr 1
  ring

theorem pureTiles_flatten_getElem (ts stride : Nat) (tex : UnallocatedTexture) (r c : Nat)
    (hr : r < (tex.height + ts - 1) / ts) (hc : c < (tex.width + ts - 1) / ts) :
    (pureTiles ts stride tex).flatten[r * ((tex.width + ts - 1) / ts) + c]? =
      some (pureTile ts stride tex r c) := by
  have hchunk : ∀ l ∈ pureTiles ts stride tex, l.length = (tex.width + ts - 1) / ts := by
    intro l hl
    rcases List.mem_map.mp hl with ⟨r', _, rfl⟩
    simp
  rw [getElem?_flatten_uniform ((tex.width + ts - 1) / ts) _ r c hchunk hc]
  simp only [pureTiles, List.getElem?_map, List.getElem?_range hr]
  simp [List.getElem?_range hc]

theorem pureTiles_flatten_mem (ts stride : Nat) (tex : UnallocatedTexture)
    (t : UnallocatedTile) (ht : t ∈ (pureTiles ts stride tex).flatten) :
    ∃ r c, r < (tex.height + ts - 1) / ts ∧ c < (tex.width + ts - 1) / ts ∧
      t = pureTile ts stride tex r c := by
  rcases List.mem_flatten.mp ht with ⟨l, hl, htl⟩
  rcases List.mem_map.mp hl with ⟨r, hrm, rfl⟩
  rcases List.mem_map.mp htl with ⟨c, hcm, rfl⟩
  exact ⟨r, c, List.mem_range.mp hrm, List.mem_range.mp hcm, rfl⟩

theorem pureTiles_find (ts stride : Nat) (tex : UnallocatedTexture) (y x : Nat)
    (hts : 0 < ts) (hy : y < tex.height) (hx : x < tex.width) :
    (pureTiles ts stride tex).flatten.find?
        (fun t => t.row == y / ts && t.column == x / ts) =
      some (pureTile ts stride tex (y / ts) (x / ts)) := by
  have hr : y / ts < (tex.height + ts - 1) / ts := div_lt_ceilDiv ts tex.height y hts hy
  have hc : x / ts < (tex.width + ts - 1) / ts := div_lt_ceilDiv ts tex.width x hts hx
  have hmem : pureTile ts stride tex (y / ts) (x / ts) ∈
      (pureTiles ts stride tex).flatten := by
    apply List.mem_flatten.mpr
    refine ⟨(List.range ((tex.width + ts - 1) / ts)).map
      (fun c => pureTile ts stride tex (y / ts) c), ?_, ?_⟩
    · exact List.mem_map.mpr ⟨y / ts, List.mem_range.mpr hr, rfl⟩
    · exact List.mem_map.mpr ⟨x / ts, List.mem_range.mpr hc, rfl⟩
  cases hfind : (pureTiles ts stride tex).flatten.find?
      (fun t => t.row == y / ts && t.column == x / ts) with
  | none =>
    exfalso
    have := List.find?_eq_none.mp hfind _ hmem
    simp [pureTile] at this
  | some t =>
    have hp := List.find?_some hfind
    have hmem' := List.mem_of_find?_eq_some hfind
    rcases pureTiles_flatten_mem ts stride tex t hmem' with ⟨r', c', _, _, rfl⟩
    simp only [pureTile, Bool.and_eq_true, beq_iff_eq] at hp
    rw [hp.1, hp.2]

theorem reassemble_length (w h ts stride : Nat) (tiles : List UnallocatedTile) :
    (reassemble w h ts stride tiles).length = h * (w * stride) := by
  have houter : ∀ l ∈ (List.range h).map (fun y =>
      ((List.range w).map (fun x =>
        match tiles.find? (fun t => t.row == y / ts && t.column == x / ts) with
        | some t =>
          (List.range stride).map (fun c =>
            t.data.getD (((y % ts) * t.width + (x % ts)) * stride + c) 0)
        | none => List.replicate stride 0)).flatten),
      l.length = w * stride := by
    intro l hl
    rcases List.mem_map.mp hl with ⟨y, _, rfl⟩
    have hinner : ∀ l' ∈ (List.range w).map (fun x =>
        match tiles.find? (fun t => t.row == y / ts && t.column == x / ts) with
        | some t =>
          (List.range stride).map (fun c =>
            t.data.getD (((y % ts) * t.width + (x % ts)) * stride + c) 0)
        | none => List.replicate stride 0),
        l'.length = stride := by
      intro l' hl'
      rcases List.mem_map.mp hl' with ⟨x, _, rfl⟩
      cases tiles.find? (fun t => t.row == y / ts && t.column == x / ts) <;> simp
    rw [length_flatten_uniform stride _ hinner]
    simp
  simp only [reassemble]
  rw [length_flatten_uniform (w * stride) _ houter]
  simp

theorem reassemble_getElem (ts stride : Nat) (tex : UnallocatedTexture) (y x cc : Nat)
    (hts : 0 < ts) (hlen : tex.width * tex.height * stride ≤ tex.data.length)
    (hy : y < tex.height) (hx : x < tex.width) (hcc : cc < stride) :
    (reassemble tex.width tex.height ts stride
        (pureTiles ts stride tex).flatten)[(y * tex.width + x) * stride + cc]? =
      tex.data[(y * tex.width + x) * stride + cc]? := by
  set w := tex.width with hweq
  set h := tex.height with hheq
  set tiles := (pureTiles ts stride tex).flatten with htiles
  have hinner : ∀ (y' : Nat), ∀ l' ∈ (List.range w).map (fun x' =>
      match tiles.find? (fun t => t.row == y' / ts && t.column == x' / ts) with
      | some t =>
        (List.range stride).map (fun c =>
          t.data.getD (((y' % ts) * t.width + (x' % ts)) * stride + c) 0)
      | none => List.replicate stride 0),
      l'.length = stride := by
    intro y' l' hl'
    rcases List.mem_map.mp hl' with ⟨x', _, rfl⟩
    cases tiles.find? (fun t => t.row == y' / ts && t.column == x' / ts) <;> simp
  have houter : ∀ l ∈ (List.range h).map (fun y' =>
      ((List.range w).map (fun x' =>
        match tiles.find? (fun t => t.row == y' / ts && t.column == x' / ts) with
        | some t =>
          (List.range stride).map (fun c =>
            t.data.getD (((y' % ts) * t.width + (x' % ts)) * stride + c) 0)
        | none => List.replicate stride 0)).flatten),
      l.length = w * stride := by
    intro l hl
    rcases List.mem_map.mp hl with ⟨y', _, rfl⟩
    rw [length_flatten_uniform stride _ (hinner y')]
    simp
  have hjx : x * stride + cc < w * stride := by
    have h1 : (x + 1) * stride ≤ w * stride := Nat.mul_le_mul_right _ (by omega)
    have h2 : (x + 1) * stride = x * stride + stride := by ring
    omega
  have hidx : (y * w + x) * stride + cc = y * (w * stride) + (x * stride + cc) := by ring
  simp only [reassemble]
  rw [hidx, getElem?_flatten_uniform (w * stride) _ y (x * stride + cc) houter hjx,
    List.getElem?_map, List.getElem?_range hy]
  simp only [Option.map_some', Option.some_bind]
  rw [getElem?_flatten_uniform stride _ x cc (hinner y) hcc,
    List.getElem?_map, List.getElem?_range hx]
  simp only [Option.map_some', Option.some_bind]
  rw [pureTiles_find ts stride tex y x hts hy hx]
  simp only [List.getElem?_map, List.getElem?_range hcc, Option.map_some']
  -- resolve the tile-local byte against the source buffer
  have hyd : y / ts * ts + y % ts = y := by
    have h0 := Nat.div_add_mod y ts
    rw [Nat.mul_comm] at h0
    exact h0
  have hxd : x / ts * ts + x % ts = x := by
    have h0 := Nat.div_add_mod x ts
    rw [Nat.mul_comm] at h0
    exact h0
  have hr : y / ts < (h + ts - 1) / ts := div_lt_ceilDiv ts h y hts hy
  have hc : x / ts < (w + ts - 1) / ts := div_lt_ceilDiv ts w x hts hx
  have hty : y % ts < min (h - y / ts * ts) ts := by
    have hm : y % ts < ts := Nat.mod_lt _ hts
    exact Nat.lt_min.mpr ⟨by omega, hm⟩
  have htx : x % ts < min (w - x / ts * ts) ts := by
    have hm : x % ts < ts := Nat.mod_lt _ hts
    exact Nat.lt_min.mpr ⟨by omega, hm⟩
  have hdata := pureTileData_getElem ts stride tex (y / ts) (x / ts) (y % ts) (x % ts) cc
    hts hlen hr hc hty htx hcc
  rw [hyd, hxd] at hdata
  have hn : (y * w + x) * stride + cc < tex.data.length := by
    have h1 : y * w + x + 1 ≤ h * w := by
      calc y * w + x + 1 ≤ y * w + w := by omega
        _ = (y + 1) * w := by ring
        _ ≤ h * w := Nat.mul_le_mul_right _ (by omega)
    calc (y * w + x) * stride + cc < (y * w + x) * stride + stride := by omega
      _ = (y * w + x + 1) * stride := by ring
      _ ≤ h * w * stride := Nat.mul_le_mul_right _ h1
      _ = w * h * stride := by ring
      _ ≤ tex.data.length := hlen
  have hsome : tex.data[(y * w + x) * stride + cc]? =
      some (tex.data.get ⟨(y * w + x) * stride + cc, hn⟩) :=
    List.getElem?_eq_getElem hn
  have hgetd : (pureTile ts stride tex (y / ts) (x / ts)).data.getD
      ((y % ts * (pureTile ts stride tex (y / ts) (x / ts)).width + x % ts) * stride + cc)
      0 = tex.data.get ⟨(y * w + x) * stride + cc, hn⟩ := by
    have hw : (pureTile ts stride tex (y / ts) (x / ts)).width =
        min (w - x / ts * ts) ts := rfl
    have hd : (pureTile ts stride tex (y / ts) (x / ts)).data =
        pureTileData ts stride tex (y / ts) (x / ts) := rfl
    rw [hw, hd]
    have : (pureTileData ts stride tex (y / ts) (x / ts)).getD
        ((y % ts * min (w - x / ts * ts) ts + x % ts) * stride + cc) 0 =
        ((pureTileData ts stride tex (y / ts) (x / ts))[(y % ts *
          min (w - x / ts * ts) ts + x % ts) * stride + cc]?).getD 0 := by
      simp [List.getD]
    rw [this, hdata, hsome]
    rfl
  rw [hgetd, ← hidx, hsome]

theorem reassemble_pure_eq (ts stride : Nat) (tex : UnallocatedTexture)
    (hts : 0 < ts) (hlen : tex.data.length = tex.width * tex.height * stride) :
    reassemble tex.width tex.height ts stride (pureTiles ts stride tex).flatten =
      tex.data := by
  apply List.ext_getElem?
  intro n
  by_cases hn : n < tex.width * tex.height * stride
  · have hp : 0 < tex.width * tex.height * stride := Nat.lt_of_le_of_lt (Nat.zero_le n) hn
    have hs : 0 < stride := by
      rcases Nat.eq_zero_or_pos stride with h0 | h0
      · rw [h0] at hp; simp at hp
      · exact h0
    have hw : 0 < tex.width := by
      rcases Nat.eq_zero_or_pos tex.width with h0 | h0
      · rw [h0] at hp; simp at hp
      · exact h0
    have hh : 0 < tex.height := by
      rcases Nat.eq_zero_or_pos tex.height with h0 | h0
      · rw [h0] at hp; simp at hp
      · exact h0
    have hws : 0 < tex.width * stride := Nat.mul_pos hw hs
    have hyb : n / (tex.width * stride) < tex.height := by
      apply (Nat.div_lt_iff_lt_mul hws).mpr
      calc n < tex.width * tex.height * stride := hn
        _ = tex.height * (tex.width * stride) := by ring
    have hr1 : n % (tex.width * stride) < tex.width * stride := Nat.mod_lt _ hws
    have hxb : n % (tex.width * stride) / stride < tex.width :=
      (Nat.div_lt_iff_lt_mul hs).mpr hr1
    have hccb : n % (tex.width * stride) % stride < stride := Nat.mod_lt _ hs
    have e1 : n / (tex.width * stride) * (tex.width * stride) + n % (tex.width * stride)
        = n := by
      have h0 := Nat.div_add_mod n (tex.width * stride)
      rw [Nat.mul_comm] at h0
      exact h0
    have e2 : n % (tex.width * stride) / stride * stride +
        n % (tex.width * stride) % stride = n % (tex.width * stride) := by
      have h0 := Nat.div_add_mod (n % (tex.width * stride)) stride
      rw [Nat.mul_comm] at h0
      exact h0
    have hneq : (n / (tex.width * stride) * tex.width +
        n % (tex.width * stride) / stride) * stride +
        n % (tex.width * stride) % stride = n := by
      calc (n / (tex.width * stride) * tex.width +
            n % (tex.width * stride) / stride) * stride +
            n % (tex.width * stride) % stride
          = n / (tex.width * stride) * (tex.width * stride) +
            (n % (tex.width * stride) / stride * stride +
              n % (tex.width * stride) % stride) := by ring
        _ = n / (tex.width * stride) * (tex.width * stride) +
            n % (tex.width * stride) := by rw [e2]
        _ = n := e1
    rw [← hneq]
    exact reassemble_getElem ts stride tex _ _ _ hts (le_of_eq hlen.symm) hyb hxb hccb
  · have h1 : (reassemble tex.width tex.height ts stride
        (pureTiles ts stride tex).flatten).length ≤ n := by
      rw [reassemble_length]
      have : tex.height * (tex.width * stride) = tex.width * tex.height * stride := by ring
      omega
    have h2 : tex.data.length ≤ n := by rw [hlen]; omega
    rw [List.getElem?_eq_none h1, List.getElem?_eq_none h2]

/-- Claim C2: for every image whose byte buffer has exactly
`width * height * stride` bytes and every `tile_size > 0`, `tile_texture`
produces a row-major grid of `ceil(height/ts) × ceil(width/ts)` tiles, each
at most `ts × ts`, edge tiles clipped to the remaining extent (never padded),
and reassembling the tiles' byte buffers by their `(row, column)` positions
using each tile's actual dimensions reproduces the original bytes exactly. -/
theorem C2_tiling_reconstruction (ts stride : Nat) (tex : UnallocatedTexture)
    (hts : 0 < ts) (hlen : tex.data.length = tex.width * tex.height * stride) :
    ∃ tiles, tile_texture ts stride tex = some tiles ∧
      tiles.length = ((tex.height + ts - 1) / ts) * ((tex.width + ts - 1) / ts) ∧
      (∀ i, i < tiles.length → ∃ t, tiles[i]? = some t ∧
        t.row = i / ((tex.width + ts - 1) / ts) ∧
        t.column = i % ((tex.width + ts - 1) / ts) ∧
        t.width = min (tex.width - t.column * ts) ts ∧
        t.height = min (tex.height - t.row * ts) ts ∧
        t.width ≤ ts ∧ t.height ≤ ts ∧
        t.data.length = t.width * t.height * stride) ∧
      reassemble tex.width tex.height ts stride tiles = tex.data := by
  have hlen' : tex.width * tex.height * stride ≤ tex.data.length := le_of_eq hlen.symm
  refine ⟨(pureTiles ts stride tex).flatten,
    tile_texture_eq_pure ts stride tex hts hlen', ?_, ?_, ?_⟩
  · rw [length_flatten_uniform ((tex.width + ts - 1) / ts)]
    · simp [pureTiles]
    · intro l hl
      rcases List.mem_map.mp hl with ⟨r, _, rfl⟩
      simp
  · intro i hi
    have hlentiles : ((pureTiles ts stride tex).flatten).length =
        ((tex.height + ts - 1) / ts) * ((tex.width + ts - 1) / ts) := by
      rw [length_flatten_uniform ((tex.width + ts - 1) / ts)]
      · simp [pureTiles]
      · intro l hl
        rcases List.mem_map.mp hl with ⟨r, _, rfl⟩
        simp
    rw [hlentiles] at hi
    have hcols : 0 < (tex.width + ts - 1) / ts := by
      rcases Nat.eq_zero_or_pos ((tex.width + ts - 1) / ts) with h0 | h0
      · rw [h0] at hi; simp at hi
      · exact h0
    have hr : i / ((tex.width + ts - 1) / ts) < (tex.height + ts - 1) / ts :=
      (Nat.div_lt_iff_lt_mul hcols).mpr hi
    have hc : i % ((tex.width + ts - 1) / ts) < (tex.width + ts - 1) / ts :=
      Nat.mod_lt _ hcols
    have hieq : i / ((tex.width + ts - 1) / ts) * ((tex.width + ts - 1) / ts) +
        i % ((tex.width + ts - 1) / ts) = i := by
      have h0 := Nat.div_add_mod i ((tex.width + ts - 1) / ts)
      rw [Nat.mul_comm] at h0
      exact h0
    refine ⟨pureTile ts stride tex (i / ((tex.width + ts - 1) / ts))
      (i % ((tex.width + ts - 1) / ts)), ?_, rfl, rfl, rfl, rfl, by simp [pureTile],
      by simp [pureTile], ?_⟩
    · conv_lhs => rw [← hieq]
      exact pureTiles_flatten_getElem ts stride tex _ _ hr hc
    · show (pureTileData ts stride tex _ _).length = _
      rw [pureTileData_length ts stride tex _ _ hts hlen' hr hc]
      show _ = min (tex.width - i % ((tex.width + ts - 1) / ts) * ts) ts *
        min (tex.height - i / ((tex.width + ts - 1) / ts) * ts) ts * stride
      ring
  · exact reassemble_pure_eq ts stride tex hts hlen

/-- Witness for C2 at the concrete image `cImg` (3×2, stride 1, tile size 2). -/
theorem C2_tiling_reconstruction_witness :
    0 < 2 ∧ cImg.data.length = cImg.width * cImg.height * 1 ∧
    (∃ tiles, tile_texture 2 1 cImg = some tiles ∧
      tiles.length = ((cImg.height + 2 - 1) / 2) * ((cImg.width + 2 - 1) / 2) ∧
      (∀ i, i < tiles.length → ∃ t, tiles[i]? = some t ∧
        t.row = i / ((cImg.width + 2 - 1) / 2) ∧
        t.column = i % ((cImg.width + 2 - 1) / 2) ∧
        t.width = min (cImg.width - t.column * 2) 2 ∧
        t.height = min (cImg.height - t.row * 2) 2 ∧
        t.width ≤ 2 ∧ t.height ≤ 2 ∧
        t.data.length = t.width * t.height * 1) ∧
      reassemble cImg.width cImg.height 2 1 tiles = cImg.data) :=
  ⟨by decide, by decide, C2_tiling_reconstruction 2 1 cImg (by decide) (by decide)⟩

/-! ## `allocate_tile`: recursion behaviour -/

theorem allocate_tile_stuck (fuel : Nat) (tex tv : TexDesc) (nrb : Bool)
    (ops : List GpuOp) :
    allocate_tile failPack unitLayer fuel
      { cStuck with
        texture := tex, texture_view := tv, needs_rebinding := nrb,
        gpuOps := ops } cTile = none := by
  induction fuel generalizing tex tv nrb ops with
  | zero => rfl
  | succ fuel ih =>
    simp only [allocate_tile, tryPackLayers, failPack, cStuck]
    norm_num [Size.area]
    exact ih { layerCount := 1, width := 2, height := 2 }
      { layerCount := 1, width := 2, height := 2 } true
      (ops ++ [GpuOp.copyTexture 1 1 1])

/-- Claim C1 (refuted; the code diverges): from the state `cStuck` — one
layer that cannot pack the tile, `max_layers` reached, `size.area` strictly
below `max_size.area` — `allocate_tile` returns nothing at every recursion
depth.  The size-doubling branch updates only the texture objects: it leaves
both `size` and the sub-allocators unchanged, so the branch guard stays true
and the recursion never reaches a tile or the exhaustion error, contradicting
the claimed `max_layers + log2(max_size/initial_size)` termination bound. -/
theorem C1_allocate_tile_diverges :
    ∀ fuel, allocate_tile failPack unitLayer fuel cStuck cTile = none := by
  intro fuel
  have h := allocate_tile_stuck fuel cStuck.texture cStuck.texture_view
    cStuck.needs_rebinding cStuck.gpuOps
  exact h

/-- Claim C8: in the size-doubling growth branch of `allocate_tile` (taken
when the layer count is at `max_layers` and the layer area is below
`max_size`'s area), the `layers` vector of sub-allocators is left entirely
unchanged — as are `size`, `allocations`, `tile_size`, `max_size` and
`max_layers` — so a packing attempt behaves exactly as before the doubling;
only `texture`, `texture_view` and `needs_rebinding` change (plus the GPU-op
log, which models the queue, not a struct field). -/
theorem C8_size_double_frame {L K D : Type}
    (packAlloc : L → Nat → Nat → Option (SubAllocation × L)) (newLayer : Size → L)
    (fuel : Nat) (s : LayeredAtlas L K D) (tile : UnallocatedTile)
    (hpack : tryPackLayers packAlloc s.layers tile.width tile.height = none)
    (hlayers : ¬ s.layers.length < s.max_layers)
    (hsize : s.size.area < s.max_size.area) :
    allocate_tile packAlloc newLayer (fuel + 1) s tile =
      allocate_tile packAlloc newLayer fuel (sizeDoubleStep s) tile ∧
    (sizeDoubleStep s).layers = s.layers ∧
    (sizeDoubleStep s).size = s.size ∧
    (sizeDoubleStep s).allocations = s.allocations ∧
    (sizeDoubleStep s).tile_size = s.tile_size ∧
    (sizeDoubleStep s).max_size = s.max_size ∧
    (sizeDoubleStep s).max_layers = s.max_layers ∧
    (sizeDoubleStep s).texture =
      { layerCount := s.layers.length,
        width := 2 * s.size.width, height := 2 * s.size.height } ∧
    (sizeDoubleStep s).texture_view = (sizeDoubleStep s).texture ∧
    (sizeDoubleStep s).needs_rebinding = true ∧
    (∀ w h, tryPackLayers packAlloc (sizeDoubleStep s).layers w h =
      tryPackLayers packAlloc s.layers w h) := by
  refine ⟨?_, rfl, rfl, rfl, rfl, rfl, rfl, rfl, rfl, rfl, fun w h => rfl⟩
  simp only [allocate_tile, hpack, if_neg hlayers, if_pos hsize]

/-- Witness for C8 at the concrete state `cStuck`. -/
theorem C8_size_double_frame_witness :
    allocate_tile failPack unitLayer 1 cStuck cTile =
      allocate_tile failPack unitLayer 0 (sizeDoubleStep cStuck) cTile ∧
    (sizeDoubleStep cStuck).layers = cStuck.layers ∧
    (sizeDoubleStep cStuck).size = cStuck.size ∧
    (sizeDoubleStep cStuck).allocations = cStuck.allocations ∧
    (sizeDoubleStep cStuck).tile_size = cStuck.tile_size ∧
    (sizeDoubleStep cStuck).max_size = cStuck.max_size ∧
    (sizeDoubleStep cStuck).max_layers = cStuck.max_layers ∧
    (sizeDoubleStep cStuck).texture =
      { layerCount := cStuck.layers.length,
        width := 2 * cStuck.size.width, height := 2 * cStuck.size.height } ∧
    (sizeDoubleStep cStuck).texture_view = (sizeDoubleStep cStuck).texture ∧
    (sizeDoubleStep cStuck).needs_rebinding = true ∧
    (∀ w h, tryPackLayers failPack (sizeDoubleStep cStuck).layers w h =
      tryPackLayers failPack cStuck.layers w h) :=
  C8_size_double_frame failPack unitLayer 0 cStuck cTile (by decide) (by decide)
    (by decide)

/-! ## `allocate_tile` and `allocate`: error behaviour -/

theorem allocate_tile_allocations {L K D : Type}
    (packAlloc : L → Nat → Nat → Option (SubAllocation × L)) (newLayer : Size → L)
    (fuel : Nat) (s : LayeredAtlas L K D) (tile : UnallocatedTile)
    (s' : LayeredAtlas L K D) (r : Except AllocError AllocatedTile)
    (h : allocate_tile packAlloc newLayer fuel s tile = some (s', r)) :
    s'.allocations = s.allocations := by
  induction fuel generalizing s with
  | zero => simp [allocate_tile] at h
  | succ fuel ih =>
    rw [allocate_tile] at h
    cases hpack : tryPackLayers packAlloc s.layers tile.width tile.height with
    | some v =>
      rw [hpack] at h
      rcases v with ⟨layers', layer, a⟩
      simp only [Option.some_inj, Prod.mk.injEq] at h
      rw [← h.1]
    | none =>
      rw [hpack] at h
      by_cases h1 : s.layers.length < s.max_layers
      · rw [if_pos h1] at h
        exact (ih (addLayerStep newLayer s) h).trans rfl
      · rw [if_neg h1] at h
        by_cases h2 : s.size.area < s.max_size.area
        · rw [if_pos h2] at h
          exact (ih (sizeDoubleStep s) h).trans rfl
        · rw [if_neg h2] at h
          simp only [Option.some_inj, Prod.mk.injEq] at h
          rw [← h.1]

theorem allocate_tiles_allocations {L K D : Type}
    (packAlloc : L → Nat → Nat → Option (SubAllocation × L)) (newLayer : Size → L)
    (fuel : Nat) (s : LayeredAtlas L K D) (tiles : List UnallocatedTile)
    (s' : LayeredAtlas L K D) (r : Except AllocError (List AllocatedTile))
    (h : allocate_tiles packAlloc newLayer fuel s tiles = some (s', r)) :
    s'.allocations = s.allocations := by
  induction tiles generalizing s s' r with
  | nil =>
    simp only [allocate_tiles, Option.some_inj, Prod.mk.injEq] at h
    rw [← h.1]
  | cons t rest ih =>
    rw [allocate_tiles] at h
    cases h1 : allocate_tile packAlloc newLayer fuel s t with
    | none => rw [h1] at h; simp at h
    | some v =>
      rcases v with ⟨s1, r1⟩
      cases r1 with
      | error e =>
        simp only [h1, Option.some_inj, Prod.mk.injEq] at h
        rw [← h.1]
        exact allocate_tile_allocations packAlloc newLayer fuel s t s1 _ h1
      | ok a =>
        have hs1 : s1.allocations = s.allocations :=
          allocate_tile_allocations packAlloc newLayer fuel s t s1 _ h1
        simp only [h1] at h
        cases h2 : allocate_tiles packAlloc newLayer fuel s1 rest with
        | none => rw [h2] at h; simp at h
        | some v2 =>
          rcases v2 with ⟨s2, r2⟩
          have hs2 : s2.allocations = s1.allocations := ih s1 s2 r2 h2
          cases r2 with
          | error e =>
            simp only [h2, Option.some_inj, Prod.mk.injEq] at h
            rw [← h.1, hs2, hs1]
          | ok as =>
            simp only [h2, Option.some_inj, Prod.mk.injEq] at h
            rw [← h.1, hs2, hs1]

theorem allocate_tile_error_char {L K D : Type}
    (packAlloc : L → Nat → Nat → Option (SubAllocation × L)) (newLayer : Size → L)
    (fuel : Nat) :
    ∀ (s : LayeredAtlas L K D) (tile : UnallocatedTile) (s' : LayeredAtlas L K D)
      (e : AllocError),
    allocate_tile packAlloc newLayer fuel s tile = some (s', Except.error e) →
    e.width = tile.width ∧ e.height = tile.height ∧
    ¬ s'.layers.length < s'.max_layers ∧ ¬ s'.size.area < s'.max_size.area ∧
    tryPackLayers packAlloc s'.layers tile.width tile.height = none := by
  induction fuel with
  | zero => intro s tile s' e h; simp [allocate_tile] at h
  | succ fuel ih =>
    intro s tile s' e h
    rw [allocate_tile] at h
    cases hpack : tryPackLayers packAlloc s.layers tile.width tile.height with
    | some v =>
      rcases v with ⟨l', i, a⟩
      simp [hpack] at h
    | none =>
      rw [hpack] at h
      by_cases h1 : s.layers.length < s.max_layers
      · rw [if_pos h1] at h
        exact ih _ _ _ _ h
      · rw [if_neg h1] at h
        by_cases h2 : s.size.area < s.max_size.area
        · rw [if_pos h2] at h
          exact ih _ _ _ _ h
        · rw [if_neg h2] at h
          simp only [Option.some_inj, Prod.mk.injEq, Except.error.injEq] at h
          obtain ⟨hs, he⟩ := h
          subst hs
          subst he
          exact ⟨rfl, rfl, h1, h2, hpack⟩

theorem allocate_error_allocations {L K D : Type} [DecidableEq K]
    (packAlloc : L → Nat → Nat → Option (SubAllocation × L)) (newLayer : Size → L)
    (fuel stride : Nat) (s : LayeredAtlas L K D) (texture : UnallocatedTexture)
    (cache_key : Option K) (d : D) (s' : LayeredAtlas L K D) (e : AllocError)
    (h : allocate packAlloc newLayer fuel stride s texture cache_key d =
      some (s', Except.error e)) :
    s'.allocations = s.allocations := by
  have hcore : ∀ (hmiss : (match cache_key with
      | some k => is_allocated s k
      | none => none) = none), s'.allocations = s.allocations := by
    intro hmiss
    rw [allocate.eq_def] at h
    rw [hmiss] at h
    cases htt : tile_texture s.tile_size stride texture with
    | none => rw [htt] at h; simp at h
    | some tiles =>
      simp only [htt] at h
      cases hat : allocate_tiles packAlloc newLayer fuel s tiles with
      | none => rw [hat] at h; simp at h
      | some v =>
        rcases v with ⟨s1, r1⟩
        cases r1 with
        | error e1 =>
          simp only [hat, Option.some_inj, Prod.mk.injEq] at h
          rw [← h.1]
          exact allocate_tiles_allocations packAlloc newLayer fuel s tiles s1 _ hat
        | ok as => simp [hat] at h
  cases cache_key with
  | none => exact hcore rfl
  | some k =>
    cases hck : is_allocated s k with
    | some a =>
      rw [allocate.eq_def] at h
      simp [hck] at h
    | none => exact hcore hck

theorem allocate_raw_error_allocations {L K D : Type} [DecidableEq K]
    (packAlloc : L → Nat → Nat → Option (SubAllocation × L)) (newLayer : Size → L)
    (fuel : Nat) (s : LayeredAtlas L K D) (contents : List Nat) (w h' : Nat)
    (cache_key : Option K) (d : D) (s' : LayeredAtlas L K D) (e : AllocError)
    (h : allocate_raw packAlloc newLayer fuel s contents w h' cache_key d =
      some (s', Except.error e)) :
    s'.allocations = s.allocations := by
  have hcore : ∀ (hmiss : (match cache_key with
      | some k => is_allocated s k
      | none => none) = none), s'.allocations = s.allocations := by
    intro hmiss
    rw [allocate_raw.eq_def] at h
    rw [hmiss] at h
    cases hat : allocate_tile packAlloc newLayer fuel s
        { data := contents, column := 0, row := 0, width := w, height := h' } with
    | none => rw [hat] at h; simp at h
    | some v =>
      rcases v with ⟨s1, r1⟩
      cases r1 with
      | error e1 =>
        simp only [hat, Option.some_inj, Prod.mk.injEq] at h
        rw [← h.1]
        exact allocate_tile_allocations packAlloc newLayer fuel s _ s1 _ hat
      | ok t => simp [hat] at h
  cases cache_key with
  | none => exact hcore rfl
  | some k =>
    cases hck : is_allocated s k with
    | some a =>
      rw [allocate_raw.eq_def] at h
      simp [hck] at h
    | none => exact hcore hck

/-- Claim C4: a tile-allocation failure aborts the whole `allocate` (or
`allocate_raw`) call with an error and leaves the allocation map untouched
(no entry inserted for the cache key); and the only failure mode of
`allocate_tile` is the exhaustion bail — reached exactly when the layer count
cannot grow, the layer area cannot grow, and no existing layer can pack the
tile — whose error carries the tile's requested dimensions (an `Err` value,
not a panic). -/
theorem C4_error_propagation {L K D : Type} [DecidableEq K]
    (packAlloc : L → Nat → Nat → Option (SubAllocation × L)) (newLayer : Size → L)
    (fuel stride : Nat) :
    (∀ (s : LayeredAtlas L K D) (texture : UnallocatedTexture) (cache_key : Option K)
       (d : D) (s' : LayeredAtlas L K D) (e : AllocError),
       allocate packAlloc newLayer fuel stride s texture cache_key d =
         some (s', Except.error e) → s'.allocations = s.allocations) ∧
    (∀ (s : LayeredAtlas L K D) (contents : List Nat) (w h : Nat)
       (cache_key : Option K) (d : D) (s' : LayeredAtlas L K D) (e : AllocError),
       allocate_raw packAlloc newLayer fuel s contents w h cache_key d =
         some (s', Except.error e) → s'.allocations = s.allocations) ∧
    (∀ (s : LayeredAtlas L K D) (tile : UnallocatedTile) (s' : LayeredAtlas L K D)
       (e : AllocError),
       allocate_tile packAlloc newLayer fuel s tile = some (s', Except.error e) →
       e.width = tile.width ∧ e.height = tile.height ∧
       ¬ s'.layers.length < s'.max_layers ∧ ¬ s'.size.area < s'.max_size.area ∧
       tryPackLayers packAlloc s'.layers tile.width tile.height = none) ∧
    (∀ (s : LayeredAtlas L K D) (tile : UnallocatedTile),
       tryPackLayers packAlloc s.layers tile.width tile.height = none →
       ¬ s.layers.length < s.max_layers → ¬ s.size.area < s.max_size.area →
       allocate_tile packAlloc newLayer (fuel + 1) s tile =
         some (s, Except.error { width := tile.width, height := tile.height })) :=
  ⟨fun s texture cache_key d s' e h =>
      allocate_error_allocations packAlloc newLayer fuel stride s texture cache_key d
        s' e h,
   fun s contents w h cache_key d s' e hh =>
      allocate_raw_error_allocations packAlloc newLayer fuel s contents w h cache_key d
        s' e hh,
   fun s tile s' e h => allocate_tile_error_char packAlloc newLayer fuel s tile s' e h,
   fun s tile hp h1 h2 => by rw [allocate_tile, hp, if_neg h1, if_neg h2]⟩

/-- Witness for C4: with a packer that cannot fit the tile and a state at
both growth limits (`cExhausted`), `allocate`, `allocate_raw` and
`allocate_tile` all fail with the error carrying the tile's dimensions and
leave the allocation map unchanged. -/
theorem C4_error_propagation_witness :
    cExhausted.allocations = cExhausted.allocations ∧
    cExhausted.allocations = cExhausted.allocations ∧
    ((AllocError.mk 1 1).width = cTile.width ∧
     (AllocError.mk 1 1).height = cTile.height ∧
     ¬ cExhausted.layers.length < cExhausted.max_layers ∧
     ¬ cExhausted.size.area < cExhausted.max_size.area ∧
     tryPackLayers failPack cExhausted.layers cTile.width cTile.height = none) ∧
    allocate_tile failPack unitLayer (0 + 1) cExhausted cTile =
      some (cExhausted, Except.error { width := cTile.width, height := cTile.height }) :=
  ⟨(C4_error_propagation failPack unitLayer 1 1).1 cExhausted cImg1 none () cExhausted
      { width := 1, height := 1 } (by decide),
   (C4_error_propagation failPack unitLayer 1 1).2.1 cExhausted [7] 1 1 none ()
      cExhausted { width := 1, height := 1 } (by decide),
   (C4_error_propagation failPack unitLayer 1 1).2.2.1 cExhausted cTile cExhausted
      { width := 1, height := 1 } (by decide),
   (C4_error_propagation failPack unitLayer 0 1).2.2.2 cExhausted cTile (by decide)
      (by decide) (by decide)⟩

/-! ## Cache behaviour of `allocate` / `allocate_raw` -/

theorem allocate_ok_lookup {L K D : Type} [DecidableEq K]
    (packAlloc : L → Nat → Nat → Option (SubAllocation × L)) (newLayer : Size → L)
    (fuel stride : Nat) (s : LayeredAtlas L K D) (texture : UnallocatedTexture)
    (cache_key : Option K) (d : D) (s₁ : LayeredAtlas L K D)
    (a₁ : Shared (AllocatedTexture D))
    (h : allocate packAlloc newLayer fuel stride s texture cache_key d =
      some (s₁, Except.ok a₁)) :
    mapLookup cache_key s₁.allocations = some a₁ ∨
      (∃ k, cache_key = some k ∧ is_allocated s k = some a₁ ∧ s₁ = s) := by
  have hcore : (match cache_key with
      | some k => is_allocated s k
      | none => none) = none →
      mapLookup cache_key s₁.allocations = some a₁ := by
    intro hmiss
    rw [allocate.eq_def] at h
    rw [hmiss] at h
    cases htt : tile_texture s.tile_size stride texture with
    | none => rw [htt] at h; simp at h
    | some tiles =>
      simp only [htt] at h
      cases hat : allocate_tiles packAlloc newLayer fuel s tiles with
      | none => rw [hat] at h; simp at h
      | some v =>
        rcases v with ⟨s1, r1⟩
        cases r1 with
        | error e1 => simp [hat] at h
        | ok as =>
          simp only [hat, Option.some_inj, Prod.mk.injEq, Except.ok.injEq] at h
          rw [← h.1, ← h.2]
          exact mapLookup_mapInsert_self cache_key _ s1.allocations
  cases cache_key with
  | none => exact Or.inl (hcore rfl)
  | some k =>
    cases hck : is_allocated s k with
    | some a =>
      rw [allocate.eq_def] at h
      simp only [hck] at h
      simp only [Option.some_inj, Prod.mk.injEq, Except.ok.injEq] at h
      exact Or.inr ⟨k, rfl, by rw [hck, h.2], h.1.symm⟩
    | none => exact Or.inl (hcore hck)

/-- Claim C3: a call to `allocate` (or `allocate_raw`) whose `Some k` cache
key is already present in the allocation map returns the stored shared
allocation and leaves the entire atlas state unchanged — same layers, same
map, same textures, and no GPU operation issued; consequently two `allocate`
calls with the same `Some k` key yield the same underlying allocation. -/
theorem C3_cache_idempotence {L K D : Type} [DecidableEq K]
    (packAlloc : L → Nat → Nat → Option (SubAllocation × L)) (newLayer : Size → L) :
    (∀ (fuel stride : Nat) (s : LayeredAtlas L K D) (texture : UnallocatedTexture)
       (contents : List Nat) (w h : Nat) (k : K) (d d' : D)
       (a : Shared (AllocatedTexture D)),
       mapLookup (some k) s.allocations = some a →
       allocate packAlloc newLayer fuel stride s texture (some k) d =
         some (s, Except.ok a) ∧
       allocate_raw packAlloc newLayer fuel s contents w h (some k) d' =
         some (s, Except.ok a)) ∧
    (∀ (fuel fuel' stride stride' : Nat) (s s₁ : LayeredAtlas L K D)
       (texture texture' : UnallocatedTexture) (k : K) (d d' : D)
       (a₁ : Shared (AllocatedTexture D)),
       allocate packAlloc newLayer fuel stride s texture (some k) d =
         some (s₁, Except.ok a₁) →
       allocate packAlloc newLayer fuel' stride' s₁ texture' (some k) d' =
         some (s₁, Except.ok a₁)) := by
  constructor
  · intro fuel stride s texture contents w h k d d' a hlook
    constructor
    · rw [allocate.eq_def]
      simp [is_allocated, hlook]
    · rw [allocate_raw.eq_def]
      simp [is_allocated, hlook]
  · intro fuel fuel' stride stride' s s₁ texture texture' k d d' a₁ h
    have hlook : mapLookup (some k) s₁.allocations = some a₁ := by
      rcases allocate_ok_lookup packAlloc newLayer fuel stride s texture (some k) d s₁
          a₁ h with hl | ⟨k', hk', hck, hs⟩
      · exact hl
      · cases hk'
        rw [hs]
        exact hck
    rw [allocate.eq_def]
    simp [is_allocated, hlook]

/-- Witness for C3: the key 5 is present in `cAtlasAfter1 (some 5)`, so both
a repeated `allocate` and an `allocate_raw` return `cShared1` unchanged, and
a fresh allocation under key 5 followed by a second call yields the same
handle. -/
theorem C3_cache_idempotence_witness :
    (allocate okPack unitLayer 1 1 (cAtlasAfter1 (some 5)) cImg2 (some 5) () =
       some (cAtlasAfter1 (some 5), Except.ok cShared1) ∧
     allocate_raw okPack unitLayer 1 (cAtlasAfter1 (some 5)) [9] 1 1 (some 5) () =
       some (cAtlasAfter1 (some 5), Except.ok cShared1)) ∧
    allocate okPack unitLayer 2 1 (cAtlasAfter1 (some 5)) cImg2 (some 5) () =
      some (cAtlasAfter1 (some 5), Except.ok cShared1) :=
  ⟨(C3_cache_idempotence okPack unitLayer).1 1 1 (cAtlasAfter1 (some 5)) cImg2 [9] 1 1 5
      () () cShared1 (by decide),
   (C3_cache_idempotence okPack unitLayer).2 1 2 1 1 cAtlas (cAtlasAfter1 (some 5))
      cImg1 cImg2 5 () () cShared1 (by decide)⟩

/-! ## `None`-key allocations -/

/-- Claim C9 is refuted by this counterexample: two successive successful
`None`-key allocations; the second `insert` replaces the single `None` map
entry, so the first allocation (`cShared1`) is no longer tracked anywhere in
the map even though no `deallocate` sweep ran. -/
theorem C9_counterexample :
    allocate okPack unitLayer 1 1 cAtlas cImg1 none () =
      some (cAtlasAfter1 none, Except.ok cShared1) ∧
    allocate okPack unitLayer 1 1 (cAtlasAfter1 none) cImg2 none () =
      some (cAtlasAfter2, Except.ok cShared2) ∧
    cAtlasAfter2.allocations = [(none, cShared2)] ∧
    cShared1 ≠ cShared2 := by
  refine ⟨by decide, by decide, by decide, by decide⟩

theorem allocate_none_ok_insert {L K D : Type} [DecidableEq K]
    (packAlloc : L → Nat → Nat → Option (SubAllocation × L)) (newLayer : Size → L)
    (fuel stride : Nat) (s : LayeredAtlas L K D) (texture : UnallocatedTexture)
    (d : D) (s₃ : LayeredAtlas L K D) (a₃ : Shared (AllocatedTexture D))
    (h : allocate packAlloc newLayer fuel stride s texture none d =
      some (s₃, Except.ok a₃)) :
    s₃.allocations = mapInsert none a₃ s.allocations := by
  rw [allocate.eq_def] at h
  cases htt : tile_texture s.tile_size stride texture with
  | none => rw [htt] at h; simp at h
  | some tiles =>
    simp only [htt] at h
    cases hat : allocate_tiles packAlloc newLayer fuel s tiles with
    | none => rw [hat] at h; simp at h
    | some v =>
      rcases v with ⟨s1, r1⟩
      cases r1 with
      | error e1 => simp [hat] at h
      | ok as =>
        simp only [hat, Option.some_inj, Prod.mk.injEq, Except.ok.injEq] at h
        rw [← h.1, ← h.2]
        show mapInsert none _ s1.allocations = _
        rw [allocate_tiles_allocations packAlloc newLayer fuel s tiles s1 _ hat]

theorem allocate_raw_none_ok_insert {L K D : Type} [DecidableEq K]
    (packAlloc : L → Nat → Nat → Option (SubAllocation × L)) (newLayer : Size → L)
    (fuel : Nat) (s : LayeredAtlas L K D) (contents : List Nat) (w h : Nat)
    (d : D) (s₃ : LayeredAtlas L K D) (a₃ : Shared (AllocatedTexture D))
    (hyp : allocate_raw packAlloc newLayer fuel s contents w h none d =
      some (s₃, Except.ok a₃)) :
    s₃.allocations = mapInsert none a₃ s.allocations := by
  rw [allocate_raw.eq_def] at hyp
  cases hat : allocate_tile packAlloc newLayer fuel s
      { data := contents, column := 0, row := 0, width := w, height := h } with
  | none => rw [hat] at hyp; simp at hyp
  | some v =>
    rcases v with ⟨s1, r1⟩
    cases r1 with
    | error e1 => simp [hat] at hyp
    | ok t =>
      simp only [hat, Option.some_inj, Prod.mk.injEq, Except.ok.injEq] at hyp
      rw [← hyp.1, ← hyp.2]
      show mapInsert none _ s1.allocations = _
      rw [allocate_tile_allocations packAlloc newLayer fuel s _ s1 _ hat]

theorem allocate_preserves_other_keys {L K D : Type} [DecidableEq K]
    (packAlloc : L → Nat → Nat → Option (SubAllocation × L)) (newLayer : Size → L)
    (fuel stride : Nat) (s : LayeredAtlas L K D) (texture : UnallocatedTexture)
    (cache_key : Option K) (d : D) (s₂ : LayeredAtlas L K D)
    (r : Except AllocError (Shared (AllocatedTexture D)))
    (h : allocate packAlloc newLayer fuel stride s texture cache_key d = some (s₂, r))
    (k' : Option K) (hk' : k' ≠ cache_key) :
    mapLookup k' s₂.allocations = mapLookup k' s.allocations := by
  have hcore : (match cache_key with
      | some k => is_allocated s k
      | none => none) = none →
      mapLookup k' s₂.allocations = mapLookup k' s.allocations := by
    intro hmiss
    rw [allocate.eq_def] at h
    rw [hmiss] at h
    cases htt : tile_texture s.tile_size stride texture with
    | none => rw [htt] at h; simp at h
    | some tiles =>
      simp only [htt] at h
      cases hat : allocate_tiles packAlloc newLayer fuel s tiles with
      | none => rw [hat] at h; simp at h
      | some v =>
        rcases v with ⟨s1, r1⟩
        cases r1 with
        | error e1 =>
          simp only [hat, Option.some_inj, Prod.mk.injEq] at h
          rw [← h.1,
            allocate_tiles_allocations packAlloc newLayer fuel s tiles s1 _ hat]
        | ok as =>
          simp only [hat, Option.some_inj, Prod.mk.injEq] at h
          rw [← h.1]
          show mapLookup k' (mapInsert cache_key _ s1.allocations) = _
          rw [mapLookup_mapInsert_ne cache_key k' hk' _ s1.allocations,
            allocate_tiles_allocations packAlloc newLayer fuel s tiles s1 _ hat]
  cases cache_key with
  | none => exact hcore rfl
  | some k =>
    cases hck : is_allocated s k with
    | some a =>
      rw [allocate.eq_def] at h
      simp only [hck] at h
      simp only [Option.some_inj, Prod.mk.injEq] at h
      rw [← h.1]
    | none => exact hcore hck

theorem allocate_raw_preserves_other_keys {L K D : Type} [DecidableEq K]
    (packAlloc : L → Nat → Nat → Option (SubAllocation × L)) (newLayer : Size → L)
    (fuel : Nat) (s : LayeredAtlas L K D) (contents : List Nat) (w h : Nat)
    (cache_key : Option K) (d : D) (s₂ : LayeredAtlas L K D)
    (r : Except AllocError (Shared (AllocatedTexture D)))
    (hyp : allocate_raw packAlloc newLayer fuel s contents w h cache_key d =
      some (s₂, r))
    (k' : Option K) (hk' : k' ≠ cache_key) :
    mapLookup k' s₂.allocations = mapLookup k' s.allocations := by
  have hcore : (match cache_key with
      | some k => is_allocated s k
      | none => none) = none →
      mapLookup k' s₂.allocations = mapLookup k' s.allocations := by
    intro hmiss
    rw [allocate_raw.eq_def] at hyp
    rw [hmiss] at hyp
    cases hat : allocate_tile packAlloc newLayer fuel s
        { data := contents, column := 0, row := 0, width := w, height := h } with
    | none => rw [hat] at hyp; simp at hyp
    | some v =>
      rcases v with ⟨s1, r1⟩
      cases r1 with
      | error e1 =>
        simp only [hat, Option.some_inj, Prod.mk.injEq] at hyp
        rw [← hyp.1, allocate_tile_allocations packAlloc newLayer fuel s _ s1 _ hat]
      | ok t =>
        simp only [hat, Option.some_inj, Prod.mk.injEq] at hyp
        rw [← hyp.1]
        show mapLookup k' (mapInsert cache_key _ s1.allocations) = _
        rw [mapLookup_mapInsert_ne cache_key k' hk' _ s1.allocations,
          allocate_tile_allocations packAlloc newLayer fuel s _ s1 _ hat]
  cases cache_key with
  | none => exact hcore rfl
  | some k =>
    cases hck : is_allocated s k with
    | some a =>
      rw [allocate_raw.eq_def] at hyp
      simp only [hck] at hyp
      simp only [Option.some_inj, Prod.mk.injEq] at hyp
      rw [← hyp.1]
    | none => exact hcore hck

theorem runOps_keeps_none {L K D : Type} [DecidableEq K]
    (packAlloc : L → Nat → Nat → Option (SubAllocation × L)) (newLayer : Size → L)
    (packDealloc : L → Nat → L) (a : Shared (AllocatedTexture D)) :
    ∀ (ops : List (AtlasOp K D)) (s s'' : LayeredAtlas L K D),
    mapLookup none s.allocations = some a →
    (∀ op ∈ ops, keepsNoneEntry op) →
    runOps packAlloc newLayer packDealloc s ops = some s'' →
    mapLookup none s''.allocations = some a := by
  intro ops
  induction ops with
  | nil =>
    intro s s'' hl _ hrun
    simp only [runOps, Option.some_inj] at hrun
    rw [← hrun]
    exact hl
  | cons op ops ih =>
    intro s s'' hl hkeep hrun
    have hop : keepsNoneEntry op := hkeep op (by simp)
    have hops : ∀ o ∈ ops, keepsNoneEntry o := fun o ho => hkeep o (by simp [ho])
    rw [runOps] at hrun
    cases hro : runOp packAlloc newLayer packDealloc s op with
    | none => rw [hro] at hrun; simp at hrun
    | some s₁ =>
      rw [hro] at hrun
      refine ih s₁ s'' ?_ hops hrun
      cases op with
      | alloc fuel stride texture ck d =>
        cases ck with
        | none => exact absurd rfl hop
        | some k =>
          simp only [runOp] at hro
          rcases Option.map_eq_some'.mp hro with ⟨⟨s₁', r⟩, heq, hfst⟩
          rw [← hfst]
          rw [allocate_preserves_other_keys packAlloc newLayer fuel stride s texture
            (some k) d s₁' r heq none (by simp)]
          exact hl
      | allocRaw fuel contents w h ck d =>
        cases ck with
        | none => exact absurd rfl hop
        | some k =>
          simp only [runOp] at hro
          rcases Option.map_eq_some'.mp hro with ⟨⟨s₁', r⟩, heq, hfst⟩
          rw [← hfst]
          rw [allocate_raw_preserves_other_keys packAlloc newLayer fuel s contents w h
            (some k) d s₁' r heq none (by simp)]
          exact hl
      | sweep => exact hop.elim

theorem allocate_keys_nodup {L K D : Type} [DecidableEq K]
    (packAlloc : L → Nat → Nat → Option (SubAllocation × L)) (newLayer : Size → L)
    (fuel stride : Nat) (s : LayeredAtlas L K D) (texture : UnallocatedTexture)
    (cache_key : Option K) (d : D) (s₂ : LayeredAtlas L K D)
    (r : Except AllocError (Shared (AllocatedTexture D)))
    (h : allocate packAlloc newLayer fuel stride s texture cache_key d = some (s₂, r))
    (hnd : (s.allocations.map Prod.fst).Nodup) :
    (s₂.allocations.map Prod.fst).Nodup := by
  have hcore : (match cache_key with
      | some k => is_allocated s k
      | none => none) = none → (s₂.allocations.map Prod.fst).Nodup := by
    intro hmiss
    rw [allocate.eq_def] at h
    rw [hmiss] at h
    cases htt : tile_texture s.tile_size stride texture with
    | none => rw [htt] at h; simp at h
    | some tiles =>
      simp only [htt] at h
      cases hat : allocate_tiles packAlloc newLayer fuel s tiles with
      | none => rw [hat] at h; simp at h
      | some v =>
        rcases v with ⟨s1, r1⟩
        have hs1 : s1.allocations = s.allocations :=
          allocate_tiles_allocations packAlloc newLayer fuel s tiles s1 _ hat
        cases r1 with
        | error e1 =>
          simp only [hat, Option.some_inj, Prod.mk.injEq] at h
          rw [← h.1, hs1]
          exact hnd
        | ok as =>
          simp only [hat, Option.some_inj, Prod.mk.injEq] at h
          rw [← h.1]
          show ((mapInsert cache_key _ s1.allocations).map Prod.fst).Nodup
          rw [hs1]
          exact mapInsert_keys_nodup cache_key _ s.allocations hnd
  cases cache_key with
  | none => exact hcore rfl
  | some k =>
    cases hck : is_allocated s k with
    | some a =>
      rw [allocate.eq_def] at h
      simp only [hck] at h
      simp only [Option.some_inj, Prod.mk.injEq] at h
      rw [← h.1]
      exact hnd
    | none => exact hcore hck

theorem allocate_raw_keys_nodup {L K D : Type} [DecidableEq K]
    (packAlloc : L → Nat → Nat → Option (SubAllocation × L)) (newLayer : Size → L)
    (fuel : Nat) (s : LayeredAtlas L K D) (contents : List Nat) (w h : Nat)
    (cache_key : Option K) (d : D) (s₂ : LayeredAtlas L K D)
    (r : Except AllocError (Shared (AllocatedTexture D)))
    (hyp : allocate_raw packAlloc newLayer fuel s contents w h cache_key d =
      some (s₂, r))
    (hnd : (s.allocations.map Prod.fst).Nodup) :
    (s₂.allocations.map Prod.fst).Nodup := by
  have hcore : (match cache_key with
      | some k => is_allocated s k
      | none => none) = none → (s₂.allocations.map Prod.fst).Nodup := by
    intro hmiss
    rw [allocate_raw.eq_def] at hyp
    rw [hmiss] at hyp
    cases hat : allocate_tile packAlloc newLayer fuel s
        { data := contents, column := 0, row := 0, width := w, height := h } with
    | none => rw [hat] at hyp; simp at hyp
    | some v =>
      rcases v with ⟨s1, r1⟩
      have hs1 : s1.allocations = s.allocations :=
        allocate_tile_allocations packAlloc newLayer fuel s _ s1 _ hat
      cases r1 with
      | error e1 =>
        simp only [hat, Option.some_inj, Prod.mk.injEq] at hyp
        rw [← hyp.1, hs1]
        exact hnd
      | ok t =>
        simp only [hat, Option.some_inj, Prod.mk.injEq] at hyp
        rw [← hyp.1]
        show ((mapInsert cache_key _ s1.allocations).map Prod.fst).Nodup
        rw [hs1]
        exact mapInsert_keys_nodup cache_key _ s.allocations hnd
  cases cache_key with
  | none => exact hcore rfl
  | some k =>
    cases hck : is_allocated s k with
    | some a =>
      rw [allocate_raw.eq_def] at hyp
      simp only [hck] at hyp
      simp only [Option.some_inj, Prod.mk.injEq] at hyp
      rw [← hyp.1]
      exact hnd
    | none => exact hcore hck

/-- Claim C9 (amended): a successful `allocate`/`allocate_raw` with
`cache_key = None` inserts the new allocation into the map under the `None`
key, where it is tracked (so `deallocate` can later release it).  It remains
tracked across any sequence of further operations that contains no
`deallocate` sweep and no `None`-key allocation; a subsequent successful
`None`-key allocation replaces the entry — under the map's key-uniqueness
invariant (established for every reachable state by the preservation
conjuncts) the replacing allocation is then the only `None`-keyed entry, so
only the most recent `None`-key allocation remains tracked; and a
`deallocate` sweep removes the tracked `None` entry exactly when its strong
count is not above 1. -/
theorem C9_none_key_tracked {L K D : Type} [DecidableEq K]
    (packAlloc : L → Nat → Nat → Option (SubAllocation × L)) (newLayer : Size → L)
    (packDealloc : L → Nat → L) :
    (∀ (fuel stride : Nat) (s : LayeredAtlas L K D) (texture : UnallocatedTexture)
       (d : D) (s' : LayeredAtlas L K D) (a : Shared (AllocatedTexture D)),
       allocate packAlloc newLayer fuel stride s texture none d =
         some (s', Except.ok a) →
       s'.allocations = mapInsert none a s.allocations ∧
       mapLookup none s'.allocations = some a) ∧
    (∀ (fuel : Nat) (s : LayeredAtlas L K D) (contents : List Nat) (w h : Nat)
       (d : D) (s' : LayeredAtlas L K D) (a : Shared (AllocatedTexture D)),
       allocate_raw packAlloc newLayer fuel s contents w h none d =
         some (s', Except.ok a) →
       s'.allocations = mapInsert none a s.allocations ∧
       mapLookup none s'.allocations = some a) ∧
    (∀ (a : Shared (AllocatedTexture D)) (ops : List (AtlasOp K D))
       (s s'' : LayeredAtlas L K D),
       mapLookup none s.allocations = some a →
       (∀ op ∈ ops, keepsNoneEntry op) →
       runOps packAlloc newLayer packDealloc s ops = some s'' →
       mapLookup none s''.allocations = some a) ∧
    (∀ (fuel stride : Nat) (s₂ : LayeredAtlas L K D) (texture : UnallocatedTexture)
       (d : D) (s₃ : LayeredAtlas L K D) (a₃ : Shared (AllocatedTexture D)),
       allocate packAlloc newLayer fuel stride s₂ texture none d =
         some (s₃, Except.ok a₃) →
       mapLookup none s₃.allocations = some a₃ ∧
       ((s₂.allocations.map Prod.fst).Nodup →
         ∀ kv ∈ s₃.allocations, kv.1 = none → kv.2 = a₃)) ∧
    (∀ (s : LayeredAtlas L K D) (a : Shared (AllocatedTexture D)),
       (s.allocations.map Prod.fst).Nodup →
       mapLookup none s.allocations = some a →
       mapLookup none (deallocate packDealloc s).allocations =
         if 1 < a.strongCount then some a else none) ∧
    (∀ (fuel stride : Nat) (s : LayeredAtlas L K D) (texture : UnallocatedTexture)
       (cache_key : Option K) (d : D) (s₂ : LayeredAtlas L K D)
       (r : Except AllocError (Shared (AllocatedTexture D))),
       allocate packAlloc newLayer fuel stride s texture cache_key d =
         some (s₂, r) →
       (s.allocations.map Prod.fst).Nodup → (s₂.allocations.map Prod.fst).Nodup) ∧
    (∀ (fuel : Nat) (s : LayeredAtlas L K D) (contents : List Nat) (w h : Nat)
       (cache_key : Option K) (d : D) (s₂ : LayeredAtlas L K D)
       (r : Except AllocError (Shared (AllocatedTexture D))),
       allocate_raw packAlloc newLayer fuel s contents w h cache_key d =
         some (s₂, r) →
       (s.allocations.map Prod.fst).Nodup → (s₂.allocations.map Prod.fst).Nodup) ∧
    (∀ (s : LayeredAtlas L K D),
       (s.allocations.map Prod.fst).Nodup →
       ((deallocate packDealloc s).allocations.map Prod.fst).Nodup) := by
  refine ⟨?_, ?_, ?_, ?_, ?_, ?_, ?_, ?_⟩
  · intro fuel stride s texture d s' a h
    have hins := allocate_none_ok_insert packAlloc newLayer fuel stride s texture d
      s' a h
    exact ⟨hins, by rw [hins]; exact mapLookup_mapInsert_self none a s.allocations⟩
  · intro fuel s contents w h d s' a hyp
    have hins := allocate_raw_none_ok_insert packAlloc newLayer fuel s contents w h d
      s' a hyp
    exact ⟨hins, by rw [hins]; exact mapLookup_mapInsert_self none a s.allocations⟩
  · exact fun a ops s s'' hl hkeep hrun =>
      runOps_keeps_none packAlloc newLayer packDealloc a ops s s'' hl hkeep hrun
  · intro fuel stride s₂ texture d s₃ a₃ h
    have hins := allocate_none_ok_insert packAlloc newLayer fuel stride s₂ texture d
      s₃ a₃ h
    refine ⟨by rw [hins]; exact mapLookup_mapInsert_self none a₃ s₂.allocations, ?_⟩
    intro hnd kv hkv hk1
    rw [hins] at hkv
    exact mapInsert_entry_unique none a₃ s₂.allocations hnd kv hkv hk1
  · intro s a hnd hl
    show mapLookup none (s.allocations.filter
      (fun kv => decide (1 < kv.2.strongCount))) = _
    rw [mapLookup_filter _ _ hnd none, hl]
    by_cases h : 1 < a.strongCount
    · simp [h]
    · simp [h]
  · exact fun fuel stride s texture cache_key d s₂ r h hnd =>
      allocate_keys_nodup packAlloc newLayer fuel stride s texture cache_key d s₂ r
        h hnd
  · exact fun fuel s contents w h cache_key d s₂ r hyp hnd =>
      allocate_raw_keys_nodup packAlloc newLayer fuel s contents w h cache_key d s₂ r
        hyp hnd
  · intro s hnd
    have hsub : List.Sublist ((deallocate packDealloc s).allocations.map Prod.fst)
        (s.allocations.map Prod.fst) :=
      List.Sublist.map Prod.fst (List.filter_sublist s.allocations)
    exact List.Nodup.sublist hsub hnd

/-- Witness for the amended C9 at concrete inputs: creation tracks the new
allocation under `None` (both entry points); it survives a subsequent
`Some`-key allocation (a one-operation trace); a second `None`-key allocation
replaces it, becoming the unique `None`-keyed entry; and a sweep drops the
orphaned `None` entry (strong count 1).  Key uniqueness holds at each state
used. -/
theorem C9_none_key_tracked_witness :
    (cAtlasAfter1 none).allocations = mapInsert none cShared1 cAtlas.allocations ∧
    mapLookup none (cAtlasAfter1 none).allocations = some cShared1 ∧
    mapLookup none cAtlasAfter1b.allocations = some cShared1 ∧
    (mapLookup none cAtlasAfter2.allocations = some cShared2 ∧
      (((cAtlasAfter1 none).allocations.map Prod.fst).Nodup →
        ∀ kv ∈ cAtlasAfter2.allocations, kv.1 = none → kv.2 = cShared2)) ∧
    mapLookup none (deallocate unitDealloc cAtlasNoneDead).allocations =
      (if 1 < ({ cShared1 with strongCount := 1 } :
        Shared (AllocatedTexture Unit)).strongCount
       then some { cShared1 with strongCount := 1 } else none) ∧
    ((cAtlasAfter1 none).allocations.map Prod.fst).Nodup :=
  ⟨((C9_none_key_tracked okPack unitLayer unitDealloc).1 1 1 cAtlas cImg1 ()
      (cAtlasAfter1 none) cShared1 (by decide)).1,
   ((C9_none_key_tracked okPack unitLayer unitDealloc).2.1 1 cAtlas [7] 1 1 ()
      (cAtlasAfter1 none) cShared1 (by decide)).2,
   (C9_none_key_tracked okPack unitLayer unitDealloc).2.2.1 cShared1
      [AtlasOp.alloc 1 1 cImg1 (some 5) ()] (cAtlasAfter1 none) cAtlasAfter1b
      (by decide) (by decide) (by decide),
   (C9_none_key_tracked okPack unitLayer unitDealloc).2.2.2.1 1 1
      (cAtlasAfter1 none) cImg2 () cAtlasAfter2 cShared2 (by decide),
   (C9_none_key_tracked okPack unitLayer unitDealloc).2.2.2.2.1 cAtlasNoneDead
      { cShared1 with strongCount := 1 } (by decide) (by decide),
   (C9_none_key_tracked okPack unitLayer unitDealloc).2.2.2.2.2.1 1 1 cAtlas cImg1
      none () (cAtlasAfter1 none) (Except.ok cShared1) (by decide) (by decide)⟩

/-! ## `deallocate` -/

/-- Claim C5: `deallocate` removes from the allocation map exactly the
entries whose strong count is 1 (held only by the map, given that every
count is at least 1), retains every entry with count above 1 verbatim under
its original key, releases each removed allocation's tiles back to the
sub-allocator of the layer recorded in the tile's location using the tile's
allocation id (`releaseTile`), and changes nothing else in the state. -/
theorem C5_deallocate_partition {L K D : Type} (packDealloc : L → Nat → L)
    (s : LayeredAtlas L K D)
    (hpos : ∀ kv ∈ s.allocations, 1 ≤ kv.2.strongCount) :
    (deallocate packDealloc s).allocations =
      s.allocations.filter (fun kv => decide (kv.2.strongCount ≠ 1)) ∧
    (deallocate packDealloc s).layers =
      (s.allocations.filter (fun kv => decide (kv.2.strongCount = 1))).foldl
        (fun ls kv => kv.2.value.tiles.foldl (releaseTile packDealloc) ls) s.layers ∧
    (deallocate packDealloc s).size = s.size ∧
    (deallocate packDealloc s).tile_size = s.tile_size ∧
    (deallocate packDealloc s).texture = s.texture ∧
    (deallocate packDealloc s).texture_view = s.texture_view ∧
    (deallocate packDealloc s).max_size = s.max_size ∧
    (deallocate packDealloc s).max_layers = s.max_layers ∧
    (deallocate packDealloc s).needs_rebinding = s.needs_rebinding ∧
    (deallocate packDealloc s).gpuOps = s.gpuOps := by
  have halive : s.allocations.filter (fun kv => decide (1 < kv.2.strongCount)) =
      s.allocations.filter (fun kv => decide (kv.2.strongCount ≠ 1)) := by
    apply List.filter_congr
    intro kv hkv
    have h1 := hpos kv hkv
    by_cases h : kv.2.strongCount = 1
    · simp [h]
    · simp [h]
      omega
  have hdead : s.allocations.filter (fun kv => ! decide (1 < kv.2.strongCount)) =
      s.allocations.filter (fun kv => decide (kv.2.strongCount = 1)) := by
    apply List.filter_congr
    intro kv hkv
    have h1 := hpos kv hkv
    by_cases h : kv.2.strongCount = 1
    · simp [h]
    · simp [h]
      omega
  refine ⟨?_, ?_, rfl, rfl, rfl, rfl, rfl, rfl, rfl, rfl⟩
  · show s.allocations.filter (fun kv => decide (1 < kv.2.strongCount)) = _
    exact halive
  · show (s.allocations.filter (fun kv => ! decide (1 < kv.2.strongCount))).foldl _
      s.layers = _
    rw [hdead]

/-- Witness for C5 at `cAtlasMix` (one live entry, one orphaned entry). -/
theorem C5_deallocate_partition_witness :
    (deallocate unitDealloc cAtlasMix).allocations =
      cAtlasMix.allocations.filter (fun kv => decide (kv.2.strongCount ≠ 1)) ∧
    (deallocate unitDealloc cAtlasMix).layers =
      (cAtlasMix.allocations.filter (fun kv => decide (kv.2.strongCount = 1))).foldl
        (fun ls kv => kv.2.value.tiles.foldl (releaseTile unitDealloc) ls)
        cAtlasMix.layers ∧
    (deallocate unitDealloc cAtlasMix).size = cAtlasMix.size ∧
    (deallocate unitDealloc cAtlasMix).tile_size = cAtlasMix.tile_size ∧
    (deallocate unitDealloc cAtlasMix).texture = cAtlasMix.texture ∧
    (deallocate unitDealloc cAtlasMix).texture_view = cAtlasMix.texture_view ∧
    (deallocate unitDealloc cAtlasMix).max_size = cAtlasMix.max_size ∧
    (deallocate unitDealloc cAtlasMix).max_layers = cAtlasMix.max_layers ∧
    (deallocate unitDealloc cAtlasMix).needs_rebinding = cAtlasMix.needs_rebinding ∧
    (deallocate unitDealloc cAtlasMix).gpuOps = cAtlasMix.gpuOps :=
  C5_deallocate_partition unitDealloc cAtlasMix (by decide)

/-! ## Bounds behaviour of `tile_texture` -/

theorem tile_texture_short (ts stride : Nat) (tex : UnallocatedTexture)
    (hts : 0 < ts) (hshort : tex.data.length < tex.width * tex.height * stride) :
    tile_texture ts stride tex = none := by
  have hp : 0 < tex.width * tex.height * stride :=
    Nat.lt_of_le_of_lt (Nat.zero_le _) hshort
  have hs : 0 < stride := by
    rcases Nat.eq_zero_or_pos stride with h0 | h0
    · rw [h0] at hp; simp at hp
    · exact h0
  have hw : 0 < tex.width := by
    rcases Nat.eq_zero_or_pos tex.width with h0 | h0
    · rw [h0] at hp; simp at hp
    · exact h0
  have hh : 0 < tex.height := by
    rcases Nat.eq_zero_or_pos tex.height with h0 | h0
    · rw [h0] at hp; simp at hp
    · exact h0
  set rows := (tex.height + ts - 1) / ts with hrows
  set cols := (tex.width + ts - 1) / ts with hcols
  have hrpos : 0 < rows := by
    rw [hrows]
    apply Nat.lt_of_lt_of_le (Nat.zero_lt_one)
    apply (Nat.le_div_iff_mul_le hts).mpr
    omega
  have hcpos : 0 < cols := by
    rw [hcols]
    apply Nat.lt_of_lt_of_le (Nat.zero_lt_one)
    apply (Nat.le_div_iff_mul_le hts).mpr
    omega
  have hylt : (rows - 1) * ts < tex.height :=
    mul_lt_of_lt_ceilDiv ts tex.height (rows - 1) hts (by omega)
  have hxlt : (cols - 1) * ts < tex.width :=
    mul_lt_of_lt_ceilDiv ts tex.width (cols - 1) hts (by omega)
  have hhle : tex.height ≤ rows * ts := by
    have e := Nat.div_add_mod (tex.height + ts - 1) ts
    have hmod : (tex.height + ts - 1) % ts < ts := Nat.mod_lt _ hts
    have hcomm : ts * ((tex.height + ts - 1) / ts) = ((tex.height + ts - 1) / ts) * ts :=
      Nat.mul_comm _ _
    rw [hcomm] at e
    rw [hrows]
    omega
  have hwle : tex.width ≤ cols * ts := by
    have e := Nat.div_add_mod (tex.width + ts - 1) ts
    have hmod : (tex.width + ts - 1) % ts < ts := Nat.mod_lt _ hts
    have hcomm : ts * ((tex.width + ts - 1) / ts) = ((tex.width + ts - 1) / ts) * ts :=
      Nat.mul_comm _ _
    rw [hcomm] at e
    rw [hcols]
    omega
  have hrts : rows * ts = (rows - 1) * ts + ts := by
    have : rows = rows - 1 + 1 := by omega
    calc rows * ts = (rows - 1 + 1) * ts := by rw [← this]
      _ = (rows - 1) * ts + ts := by ring
  have hcts : cols * ts = (cols - 1) * ts + ts := by
    have : cols = cols - 1 + 1 := by omega
    calc cols * ts = (cols - 1 + 1) * ts := by rw [← this]
      _ = (cols - 1) * ts + ts := by ring
  have hth : min (tex.height - (rows - 1) * ts) ts = tex.height - (rows - 1) * ts :=
    Nat.min_eq_left (by omega)
  have htw : min (tex.width - (cols - 1) * ts) ts = tex.width - (cols - 1) * ts :=
    Nat.min_eq_left (by omega)
  -- the last row of the bottom-right tile reads up to byte width*height*stride
  have hmk : mkTile ts stride tex (rows - 1) (cols - 1) = none := by
    have hmem : min (tex.height - (rows - 1) * ts) ts - 1 ∈
        List.range (min (tex.height - (rows - 1) * ts) ts) := by
      apply List.mem_range.mpr
      omega
    have hof : (((rows - 1) * ts + (min (tex.height - (rows - 1) * ts) ts - 1)) *
          tex.width + (cols - 1) * ts) * stride +
          min (tex.width - (cols - 1) * ts) ts * stride = tex.width * tex.height * stride := by
      rw [hth, htw]
      have hy1 : (rows - 1) * ts + (tex.height - (rows - 1) * ts - 1) = tex.height - 1 := by
        omega
      rw [hy1]
      have hstep : (tex.height - 1) * tex.width + (cols - 1) * ts +
          (tex.width - (cols - 1) * ts) = tex.height * tex.width := by
        have h2 : (tex.height - 1) * tex.width + tex.width = tex.height * tex.width := by
          have h3 : tex.height - 1 + 1 = tex.height := by omega
          calc (tex.height - 1) * tex.width + tex.width
              = (tex.height - 1 + 1) * tex.width := by ring
            _ = tex.height * tex.width := by rw [h3]
        omega
      calc ((tex.height - 1) * tex.width + (cols - 1) * ts) * stride +
            (tex.width - (cols - 1) * ts) * stride
          = ((tex.height - 1) * tex.width + (cols - 1) * ts +
              (tex.width - (cols - 1) * ts)) * stride := by ring
        _ = (tex.height * tex.width) * stride := by rw [hstep]
        _ = tex.width * tex.height * stride := by ring
    have hcoll : collectSome (List.range (min (tex.height - (rows - 1) * ts) ts))
        (fun ty =>
          let src_start := (((rows - 1) * ts + ty) * tex.width + (cols - 1) * ts) * stride
          let src_end := src_start + min (tex.width - (cols - 1) * ts) ts * stride
          if src_end ≤ tex.data.length then
            some ((tex.data.drop src_start).take (src_end - src_start))
          else none) = none := by
      apply collectSome_eq_none _ _ _ hmem
      simp only
      rw [if_neg]
      omega
    simp only [mkTile]
    rw [hcoll]
  have hinner : collectSome (List.range cols)
      (fun column => mkTile ts stride tex (rows - 1) column) = none := by
    apply collectSome_eq_none _ _ (cols - 1) (List.mem_range.mpr (by omega)) hmk
  have houter : collectSome (List.range rows) (fun row =>
      collectSome (List.range cols) (fun column => mkTile ts stride tex row column)) =
      none := by
    apply collectSome_eq_none _ _ (rows - 1) (List.mem_range.mpr (by omega)) hinner
  simp only [tile_texture]
  rw [houter]

/-- Claim C10: every slice access of `tile_texture` is in bounds whenever the
source buffer holds at least `width * height * components` bytes (the
out-of-range branch of the embedding is unreachable, so the result is
`some`); with a shorter buffer the whole `allocate` call panics (the
embedding yields no normal return at any recursion depth) rather than
returning an error. -/
theorem C10_tile_texture_bounds {L K D : Type} [DecidableEq K]
    (packAlloc : L → Nat → Nat → Option (SubAllocation × L)) (newLayer : Size → L) :
    (∀ (ts stride : Nat) (tex : UnallocatedTexture), 0 < ts →
       tex.width * tex.height * stride ≤ tex.data.length →
       (tile_texture ts stride tex).isSome) ∧
    (∀ (fuel stride : Nat) (s : LayeredAtlas L K D) (tex : UnallocatedTexture) (d : D),
       0 < s.tile_size → tex.data.length < tex.width * tex.height * stride →
       allocate packAlloc newLayer fuel stride s tex none d = none) := by
  constructor
  · intro ts stride tex hts hlen
    rw [tile_texture_eq_pure ts stride tex hts hlen]
    rfl
  · intro fuel stride s tex d hts hshort
    rw [allocate.eq_def]
    simp only
    rw [tile_texture_short s.tile_size stride tex hts hshort]

/-- Witness for C10: `cImg` (6 bytes, exactly 3·2·1) tiles successfully; the
same image with its last byte missing makes `allocate` panic. -/
theorem C10_tile_texture_bounds_witness :
    (tile_texture 2 1 cImg).isSome ∧
    allocate okPack unitLayer 1 1 cAtlas
      { data := [0, 1, 2, 3, 4], width := 3, height := 2 } none () = none :=
  ⟨(@C10_tile_texture_bounds Unit Nat Unit _ okPack unitLayer).1 2 1 cImg (by decide)
      (by decide),
   (@C10_tile_texture_bounds Unit Nat Unit _ okPack unitLayer).2 1 1 cAtlas
      { data := [0, 1, 2, 3, 4], width := 3, height := 2 } () (by decide) (by decide)⟩

/-! ## Mesh structure lemmas -/

theorem foldl_append_block (f : AllocatedTile → List TextureVertex)
    (hf : ∀ t, (f t).length = 4) :
    ∀ (tiles : List AllocatedTile) (m : TextureMesh),
    (tiles.foldl (fun m t => m.append_block (f t)) m).vertices =
      m.vertices ++ (tiles.map f).flatten ∧
    (tiles.foldl (fun m t => m.append_block (f t)) m).indices =
      m.indices ++ ((List.range tiles.length).map
        (fun i => BLOCK_INDICES.map (fun b => m.vertices.length + 4 * i + b))).flatten := by
  intro tiles
  induction tiles with
  | nil => intro m; simp
  | cons t ts ih =>
    intro m
    have hm' := ih (m.append_block (f t))
    rcases hm' with ⟨hv, hi⟩
    constructor
    · rw [List.foldl_cons, hv]
      simp [TextureMesh.append_block, List.append_assoc]
    · rw [List.foldl_cons, hi]
      have hlen : (m.append_block (f t)).vertices.length = m.vertices.length + 4 := by
        simp [TextureMesh.append_block, hf t]
      rw [hlen]
      have hrange : List.range (ts.length + 1) =
          0 :: (List.range ts.length).map Nat.succ := List.range_succ_eq_map ts.length
      simp only [List.length_cons, hrange, List.map_cons, List.flatten_cons,
        TextureMesh.append_block, List.append_assoc, List.map_map]
      have hcomp : (fun i => BLOCK_INDICES.map
          (fun b => m.vertices.length + 4 + 4 * i + b)) =
          ((fun i => BLOCK_INDICES.map (fun b => m.vertices.length + 4 * i + b)) ∘
            Nat.succ) := by
        funext i
        simp only [Function.comp]
        congr 1
        funext b
        omega
      congr 2
      all_goals rw [hcomp]

theorem to_mesh_closed {D : Type} (tex : AllocatedTexture D) (area : Box2)
    (atlas_size : Size) (hne : ¬ area.isEmpty) :
    (tex.to_mesh area atlas_size).vertices =
      (tex.tiles.map (tileQuad tex area atlas_size)).flatten ∧
    (tex.to_mesh area atlas_size).indices =
      ((List.range tex.tiles.length).map
        (fun i => BLOCK_INDICES.map (fun b => 4 * i + b))).flatten := by
  have hf : ∀ t, (tileQuad tex area atlas_size t).length = 4 := by
    intro t
    rfl
  have h := foldl_append_block (tileQuad tex area atlas_size) hf tex.tiles
    TextureMesh.empty
  rcases h with ⟨hv, hi⟩
  constructor
  · rw [AllocatedTexture.to_mesh, if_neg hne, hv]
    rfl
  · rw [AllocatedTexture.to_mesh, if_neg hne, hi]
    simp [TextureMesh.empty]

/-- Claim C7: for a tile packed at atlas rectangle `(x0,y0)-(x1,y1)` in an
atlas of current size `(W,H)`, `to_mesh` emits UVs exactly `(x0/W, y0/H)`
through `(x1/W, y1/H)`; each tile contributes exactly 4 vertices in the order
top-left, top-right, bottom-right, bottom-left plus 6 indices forming the two
triangles `(0,1,2)` and `(0,2,3)` of its quad; and a degenerate (empty)
output rectangle yields the empty mesh. -/
theorem C7_mesh_uv {D : Type} (tex : AllocatedTexture D) (area : Box2)
    (asize : Size) :
    (area.isEmpty → tex.to_mesh area asize = TextureMesh.empty) ∧
    (¬ area.isEmpty →
      (tex.to_mesh area asize).vertices.length = 4 * tex.tiles.length ∧
      (tex.to_mesh area asize).indices.length = 6 * tex.tiles.length ∧
      (∀ (i : Nat) (t : AllocatedTile), tex.tiles[i]? = some t →
        ∃ v0 v1 v2 v3 : TextureVertex,
          (tex.to_mesh area asize).vertices[4 * i]? = some v0 ∧
          (tex.to_mesh area asize).vertices[4 * i + 1]? = some v1 ∧
          (tex.to_mesh area asize).vertices[4 * i + 2]? = some v2 ∧
          (tex.to_mesh area asize).vertices[4 * i + 3]? = some v3 ∧
          v0.texture_coords = ((t.location.rect.minX : ℚ) / (asize.width : ℚ),
            (t.location.rect.minY : ℚ) / (asize.height : ℚ)) ∧
          v1.texture_coords = ((t.location.rect.maxX : ℚ) / (asize.width : ℚ),
            (t.location.rect.minY : ℚ) / (asize.height : ℚ)) ∧
          v2.texture_coords = ((t.location.rect.maxX : ℚ) / (asize.width : ℚ),
            (t.location.rect.maxY : ℚ) / (asize.height : ℚ)) ∧
          v3.texture_coords = ((t.location.rect.minX : ℚ) / (asize.width : ℚ),
            (t.location.rect.maxY : ℚ) / (asize.height : ℚ)) ∧
          (∃ x1 y1 x2 y2 : ℚ, v0.position = (x1, y1) ∧ v1.position = (x2, y1) ∧
            v2.position = (x2, y2) ∧ v3.position = (x1, y2)) ∧
          v0.texture_layer = t.location.layer ∧ v1.texture_layer = t.location.layer ∧
          v2.texture_layer = t.location.layer ∧ v3.texture_layer = t.location.layer ∧
          (tex.to_mesh area asize).indices[6 * i]? = some (4 * i) ∧
          (tex.to_mesh area asize).indices[6 * i + 1]? = some (4 * i + 1) ∧
          (tex.to_mesh area asize).indices[6 * i + 2]? = some (4 * i + 2) ∧
          (tex.to_mesh area asize).indices[6 * i + 3]? = some (4 * i) ∧
          (tex.to_mesh area asize).indices[6 * i + 4]? = some (4 * i + 2) ∧
          (tex.to_mesh area asize).indices[6 * i + 5]? = some (4 * i + 3))) := by
  constructor
  · intro he
    rw [AllocatedTexture.to_mesh, if_pos he]
  · intro hne
    have hclosed := to_mesh_closed tex area asize hne
    have hchunkv : ∀ l ∈ tex.tiles.map (tileQuad tex area asize), l.length = 4 := by
      intro l hl
      rcases List.mem_map.mp hl with ⟨t', _, rfl⟩
      rfl
    have hchunki : ∀ l ∈ (List.range tex.tiles.length).map
        (fun i => BLOCK_INDICES.map (fun b => 4 * i + b)), l.length = 6 := by
      intro l hl
      rcases List.mem_map.mp hl with ⟨i, _, rfl⟩
      rfl
    refine ⟨?_, ?_, ?_⟩
    · rw [hclosed.1, length_flatten_uniform 4 _ hchunkv]
      simp [Nat.mul_comm]
    · rw [hclosed.2, length_flatten_uniform 6 _ hchunki]
      simp [Nat.mul_comm]
    · intro i t hit
      have hilen : i < tex.tiles.length := by
        by_contra hcon
        rw [List.getElem?_eq_none (by omega)] at hit
        exact absurd hit (by simp)
      have hvj : ∀ j, j < 4 → (tex.to_mesh area asize).vertices[4 * i + j]? =
          (tileQuad tex area asize t)[j]? := by
        intro j hj
        rw [hclosed.1]
        have hidx : 4 * i + j = i * 4 + j := by ring
        rw [hidx, getElem?_flatten_uniform 4 _ i j hchunkv hj, List.getElem?_map, hit]
        rfl
      have hij : ∀ j, j < 6 → (tex.to_mesh area asize).indices[6 * i + j]? =
          some (4 * i + BLOCK_INDICES.getD j 0) := by
        intro j hj
        rw [hclosed.2]
        have hidx : 6 * i + j = i * 6 + j := by ring
        rw [hidx, getElem?_flatten_uniform 6 _ i j hchunki hj, List.getElem?_map,
          List.getElem?_range hilen]
        simp only [Option.map_some', Option.some_bind, List.getElem?_map]
        have hbj : ∃ b, BLOCK_INDICES[j]? = some b ∧ BLOCK_INDICES.getD j 0 = b := by
          interval_cases j <;> exact ⟨_, rfl, rfl⟩
        rcases hbj with ⟨b, hb1, hb2⟩
        rw [hb1, hb2]
        rfl
      exact ⟨
        { position := ((tileDest tex area t).min.x, (tileDest tex area t).min.y),
          texture_layer := t.location.layer,
          texture_coords := ((t.location.rect.minX : ℚ) / (asize.width : ℚ),
            (t.location.rect.minY : ℚ) / (asize.height : ℚ)) },
        { position := ((tileDest tex area t).max.x, (tileDest tex area t).min.y),
          texture_layer := t.location.layer,
          texture_coords := ((t.location.rect.maxX : ℚ) / (asize.width : ℚ),
            (t.location.rect.minY : ℚ) / (asize.height : ℚ)) },
        { position := ((tileDest tex area t).max.x, (tileDest tex area t).max.y),
          texture_layer := t.location.layer,
          texture_coords := ((t.location.rect.maxX : ℚ) / (asize.width : ℚ),
            (t.location.rect.maxY : ℚ) / (asize.height : ℚ)) },
        { position := ((tileDest tex area t).min.x, (tileDest tex area t).max.y),
          texture_layer := t.location.layer,
          texture_coords := ((t.location.rect.minX : ℚ) / (asize.width : ℚ),
            (t.location.rect.maxY : ℚ) / (asize.height : ℚ)) },
        hvj 0 (by omega), hvj 1 (by omega), hvj 2 (by omega), hvj 3 (by omega),
        rfl, rfl, rfl, rfl,
        ⟨(tileDest tex area t).min.x, (tileDest tex area t).min.y,
          (tileDest tex area t).max.x, (tileDest tex area t).max.y,
          rfl, rfl, rfl, rfl⟩,
        rfl, rfl, rfl, rfl,
        hij 0 (by omega), hij 1 (by omega), hij 2 (by omega), hij 3 (by omega),
        hij 4 (by omega), hij 5 (by omega)⟩

/-- Witness for C7: the empty output rectangle yields the empty mesh, and the
2×2 one-tile texture rendered into (0,0)-(4,4) against a 4×4 atlas yields 4
vertices, 6 indices, and the stated per-tile structure. -/
theorem C7_mesh_uv_witness :
    cAllocTex.to_mesh cAreaEmpty { width := 4, height := 4 } = TextureMesh.empty ∧
    (cAllocTex.to_mesh cArea { width := 4, height := 4 }).vertices.length =
      4 * cAllocTex.tiles.length ∧
    (cAllocTex.to_mesh cArea { width := 4, height := 4 }).indices.length =
      6 * cAllocTex.tiles.length ∧
    (∃ v0 v1 v2 v3 : TextureVertex,
      (cAllocTex.to_mesh cArea { width := 4, height := 4 }).vertices[4 * 0]? = some v0 ∧
      (cAllocTex.to_mesh cArea { width := 4, height := 4 }).vertices[4 * 0 + 1]? =
        some v1 ∧
      (cAllocTex.to_mesh cArea { width := 4, height := 4 }).vertices[4 * 0 + 2]? =
        some v2 ∧
      (cAllocTex.to_mesh cArea { width := 4, height := 4 }).vertices[4 * 0 + 3]? =
        some v3 ∧
      v0.texture_coords = ((cAllocTile.location.rect.minX : ℚ) / ((4 : Nat) : ℚ),
        (cAllocTile.location.rect.minY : ℚ) / ((4 : Nat) : ℚ)) ∧
      v1.texture_coords = ((cAllocTile.location.rect.maxX : ℚ) / ((4 : Nat) : ℚ),
        (cAllocTile.location.rect.minY : ℚ) / ((4 : Nat) : ℚ)) ∧
      v2.texture_coords = ((cAllocTile.location.rect.maxX : ℚ) / ((4 : Nat) : ℚ),
        (cAllocTile.location.rect.maxY : ℚ) / ((4 : Nat) : ℚ)) ∧
      v3.texture_coords = ((cAllocTile.location.rect.minX : ℚ) / ((4 : Nat) : ℚ),
        (cAllocTile.location.rect.maxY : ℚ) / ((4 : Nat) : ℚ)) ∧
      (∃ x1 y1 x2 y2 : ℚ, v0.position = (x1, y1) ∧ v1.position = (x2, y1) ∧
        v2.position = (x2, y2) ∧ v3.position = (x1, y2)) ∧
      v0.texture_layer = cAllocTile.location.layer ∧
      v1.texture_layer = cAllocTile.location.layer ∧
      v2.texture_layer = cAllocTile.location.layer ∧
      v3.texture_layer = cAllocTile.location.layer ∧
      (cAllocTex.to_mesh cArea { width := 4, height := 4 }).indices[6 * 0]? =
        some (4 * 0) ∧
      (cAllocTex.to_mesh cArea { width := 4, height := 4 }).indices[6 * 0 + 1]? =
        some (4 * 0 + 1) ∧
      (cAllocTex.to_mesh cArea { width := 4, height := 4 }).indices[6 * 0 + 2]? =
        some (4 * 0 + 2) ∧
      (cAllocTex.to_mesh cArea { width := 4, height := 4 }).indices[6 * 0 + 3]? =
        some (4 * 0) ∧
      (cAllocTex.to_mesh cArea { width := 4, height := 4 }).indices[6 * 0 + 4]? =
        some (4 * 0 + 2) ∧
      (cAllocTex.to_mesh cArea { width := 4, height := 4 }).indices[6 * 0 + 5]? =
        some (4 * 0 + 3)) :=
  ⟨(C7_mesh_uv cAllocTex cAreaEmpty { width := 4, height := 4 }).1
      (by simp [Box2.isEmpty, cAreaEmpty]),
   ((C7_mesh_uv cAllocTex cArea { width := 4, height := 4 }).2
      (by simp [Box2.isEmpty, cArea])).1,
   ((C7_mesh_uv cAllocTex cArea { width := 4, height := 4 }).2
      (by simp [Box2.isEmpty, cArea])).2.1,
   ((C7_mesh_uv cAllocTex cArea { width := 4, height := 4 }).2
      (by simp [Box2.isEmpty, cArea])).2.2 0 cAllocTile rfl⟩

/-- Claim C6 is refuted by this concrete evaluation (code bug): rendering the
2×2 one-tile texture `cAllocTex` into the output rectangle (0,0)-(4,4), the
code produces the destination rectangle (0,0)-(1,1) — its vertex positions
are below — because `area_ratio_w = self.width / output_size.width`
multiplies by original/output.  The claim's scaling (grid position and actual
tile dimensions times output/original) puts the tile's far corner at 4, not
at the 1 the code computes. -/
theorem C6_dest_scaling_inverted :
    ((cAllocTex.to_mesh cArea { width := 4, height := 4 }).vertices.map
       (fun v => v.position)) = [(0, 0), (1, 0), (1, 1), (0, 1)] ∧
    cArea.min.x + (((cAllocTile.column * cAllocTex.tile_size : Nat) : ℚ) +
        (((cAllocTile.location.rect.maxX : ℚ) - (cAllocTile.location.rect.minX : ℚ)))) *
      ((cArea.max.x - cArea.min.x) / (cAllocTex.width : ℚ)) = 4 ∧
    ((1 : ℚ) ≠ 4) := by
  refine ⟨?_, ?_, by norm_num⟩
  · rw [AllocatedTexture.to_mesh, if_neg (by simp [Box2.isEmpty, cArea])]
    simp only [cAllocTex, cAllocTile, cArea, tileQuad, tileDest, AllocatedTile.to_quad,
      new_block, TextureMesh.append_block, TextureMesh.empty, List.foldl, BLOCK_INDICES]
    norm_num
  · simp only [cAllocTex, cAllocTile, cArea]
    norm_num

end Draw
